import Mathlib

/-!
Verification development for the deterministic level builder
(`src/api/levelBuilder.ts`) and the adaptive physics calculator
(`src/src/game/physics/PhysicsConfig.ts`).

Modelling conventions:
* JS numbers are modelled as exact rationals (`ℚ`).  Every arithmetic
  operation the builder performs (+, -, *, /, `Math.min/max/floor/round`,
  comparison) is exact on the values involved, so `ℚ` is a faithful model
  of the computation; decimal literals denote the decimal values the
  source writes.
* The mulberry32 PRNG works on 32-bit integers; its state and outputs are
  modelled as `Nat` bit patterns `< 2^32` with explicit `% 2^32`, and each
  float output is the exact rational `pattern / 2^32` (division of a
  32-bit integer by `2^32` is exact in binary floating point).
* The PRNG closure of the source is modelled by an output stream
  `rng : Nat → ℚ` together with a call counter: every layout strategy
  makes exactly three `rng()` calls per platform (width, y, x, in that
  order), after one initial call that picks the strategy, so call `k` of
  the closure is `rng k`.
* `Math.sin` (used only to choose the horizontal centre in the `sCurve`
  strategy, whose result is immediately clamped) is implementation
  defined in JS; it is modelled by an arbitrary function parameter
  `sinF : ℚ → ℚ`.
* `Math.sqrt` (used only for `jumpVelocity`) is modelled by `Real.sqrt`.
-/

-- ---------------------------------------------------------------------------
-- Shared helpers (`clamp`, `lerp` from levelBuilder.ts; JS `Math.round`,
-- 32-bit wrapping)
-- ---------------------------------------------------------------------------

/-- `clamp(v, lo, hi) = Math.max(lo, Math.min(hi, v))`. -/
def clampQ (v lo hi : ℚ) : ℚ := max lo (min hi v)

/-- `lerp(a, b, t) = a + (b - a) * t`. -/
def lerpQ (a b t : ℚ) : ℚ := a + (b - a) * t

/-- JS `Math.round`: nearest integer, ties toward positive infinity. -/
def jsRound (q : ℚ) : Int := ⌊q + 1 / 2⌋

/-- JS `ToInt32` (the `| 0` coercion): wrap to a signed 32-bit integer. -/
def jsToInt32 (x : Int) : Int := (x + 2 ^ 31) % 2 ^ 32 - 2 ^ 31

-- ---------------------------------------------------------------------------
-- Seeded PRNG (mulberry32), exact on 32-bit bit patterns
-- ---------------------------------------------------------------------------

/-- One state advance of mulberry32: `s = (s + 0x6d2b79f5) | 0`
(bit pattern of the new state). -/
def mulberryStep (s : Nat) : Nat := (s + 0x6d2b79f5) % 2 ^ 32

/-- The output bit pattern mulberry32 derives from a (post-advance) state:
`t = imul(s ^ (s >>> 15), 1 | s); t = (t + imul(t ^ (t >>> 7), 61 | t)) ^ t;
(t ^ (t >>> 14)) >>> 0`. -/
def mulberryOut (s : Nat) : Nat :=
  let t1 := ((s ^^^ (s >>> 15)) * (1 ||| s)) % 2 ^ 32
  let t2 := ((t1 + ((t1 ^^^ (t1 >>> 7)) * (61 ||| t1)) % 2 ^ 32) % 2 ^ 32) ^^^ t1
  t2 ^^^ (t2 >>> 14)

/-- The stream of floats returned by the closure `createRng(seed)`:
call `k` (0-based) advances the state a `(k+1)`-th time and divides the
output pattern by `2^32`.  Exact: both are 32-bit integers. -/
def mulberryStream (seed : Nat) (k : Nat) : ℚ :=
  (mulberryOut (mulberryStep^[k + 1] seed) : ℚ) / 4294967296

-- ---------------------------------------------------------------------------
-- Data model (levelBuilder.ts types)
-- ---------------------------------------------------------------------------

/-- Detection categories. -/
inductive Category where
  | furniture
  | food
  | plant
  | electric
  | other
deriving DecidableEq, Repr

/-- Normalized rectangle `{x, y, w, h}`. -/
structure Bounds where
  x : ℚ
  y : ℚ
  w : ℚ
  h : ℚ
deriving DecidableEq, Repr

/-- One AI detection. -/
structure Detection where
  label : String
  category : Category
  confidence : ℚ
  bounds_normalized : Bounds
deriving DecidableEq, Repr

/-- Image dimensions in pixels. -/
structure ImageSize where
  w : Int
  h : Int
deriving DecidableEq, Repr

/-- The builder's input. -/
structure DetectionResponse where
  image : ImageSize
  detections : List Detection
deriving DecidableEq, Repr

/-- SceneV1 object types. -/
inductive ObjType where
  | platform
  | obstacle
  | collectible
  | hazard
deriving DecidableEq, Repr

/-- SceneV1 surface types. -/
inductive SurfaceType where
  | solid
  | soft
deriving DecidableEq, Repr

/-- One SceneV1 object. -/
structure SceneObject where
  id : String
  type : ObjType
  label : String
  confidence : ℚ
  bounds_normalized : Bounds
  surface_type : Option SurfaceType
  category : Option Category
  enemy_spawn_anchor : Option Bool
deriving DecidableEq, Repr

/-- A spawn point, normalized coordinates. -/
structure SpawnPoint where
  x : ℚ
  y : ℚ
deriving DecidableEq, Repr

/-- An enemy spawn (`SpawnPoint` plus a type tag). -/
structure EnemySpawn where
  x : ℚ
  y : ℚ
  type : String
deriving DecidableEq, Repr

/-- A pickup spawn (`SpawnPoint` plus a type tag). -/
structure PickupSpawn where
  x : ℚ
  y : ℚ
  type : String
deriving DecidableEq, Repr

/-- The `spawns` record of a SceneV1. -/
structure SceneSpawns where
  player : SpawnPoint
  exit : SpawnPoint
  enemies : List EnemySpawn
  pickups : List PickupSpawn
deriving DecidableEq, Repr

/-- The builder's output (`rules` is always the empty array, modelled as
`List Unit`). -/
structure SceneV1 where
  version : Nat
  image : ImageSize
  objects : List SceneObject
  spawns : SceneSpawns
  rules : List Unit
deriving DecidableEq, Repr

-- ---------------------------------------------------------------------------
-- Constants of levelBuilder.ts
-- ---------------------------------------------------------------------------

def GROUND_Y : ℚ := 0.92
def EXIT_Y : ℚ := 0.18
def MAX_JUMP_HEIGHT : ℚ := 0.22
def PLATFORM_THICKNESS : ℚ := 0.03
def ENTITY_OFFSET_Y : ℚ := 0.06
def MIN_PLATFORMS : Nat := 5
def MAX_PLATFORMS : Nat := 8
def MIN_PLAT_W : ℚ := 0.12
def MAX_PLAT_W : ℚ := 0.35
def X_MIN : ℚ := 0.02
def X_MAX : ℚ := 0.96

-- ---------------------------------------------------------------------------
-- Seed derivation (`deriveSeed`)
-- ---------------------------------------------------------------------------

/-- `deriveSeed`: `hash = w*7919 + h*6271`, then for each detection
`hash = ((hash << 5) - hash + label.length*31 + round(x*1000) + round(y*1000)) | 0`.
(JS `<<` first coerces its operand to `Int32`.) -/
def deriveSeed (input : DetectionResponse) : Int :=
  input.detections.foldl
    (fun hash d =>
      jsToInt32 (jsToInt32 (jsToInt32 hash * 32) - hash
        + (d.label.length : Int) * 31
        + jsRound (d.bounds_normalized.x * 1000)
        + jsRound (d.bounds_normalized.y * 1000)))
    (input.image.w * 7919 + input.image.h * 6271)

/-- The unsigned 32-bit state pattern `createRng` starts from
(`let s = seed | 0`). -/
def seedPattern (input : DetectionResponse) : Nat :=
  (deriveSeed input % 2 ^ 32).toNat

-- ---------------------------------------------------------------------------
-- Step A: classification
-- ---------------------------------------------------------------------------

/-- The per-detection info the builder keeps (`DetectionInfo`). -/
structure DetectionInfo where
  label : String
  category : Category
  confidence : ℚ
  width : ℚ
  enemyAnchor : Bool
deriving DecidableEq, Repr

/-- The platform info built from a non-food detection. -/
def detToInfo (det : Detection) : DetectionInfo :=
  { label := det.label
    category := det.category
    confidence := det.confidence
    width := clampQ det.bounds_normalized.w MIN_PLAT_W MAX_PLAT_W
    enemyAnchor :=
      decide (det.category = Category.plant ∨ det.category = Category.electric) }

/-- Step A loop: food detections are pushed onto `collectibleDetections`,
everything else onto `platformInfos`. -/
def classify (detections : List Detection) : List DetectionInfo × List Detection :=
  detections.foldl
    (fun acc det =>
      if det.category = Category.food then (acc.1, acc.2 ++ [det])
      else (acc.1 ++ [detToInfo det], acc.2))
    ([], [])

-- ---------------------------------------------------------------------------
-- Step B: platform count and padding
-- ---------------------------------------------------------------------------

/-- `platCount = clamp(platformInfos.length, MIN_PLATFORMS, MAX_PLATFORMS)`. -/
def platCountOf (n : Nat) : Nat := max MIN_PLATFORMS (min MAX_PLATFORMS n)

/-- The synthetic padding entry. -/
def ledgeInfo : DetectionInfo :=
  { label := "ledge", category := Category.other, confidence := 1
    width := 0.18, enemyAnchor := false }

/-- The `while (platformInfos.length < platCount)` padding loop. -/
def padInfos (infos : List DetectionInfo) (pc : Nat) : List DetectionInfo :=
  infos ++ List.replicate (pc - infos.length) ledgeInfo

-- ---------------------------------------------------------------------------
-- Step C: staircase layout
-- ---------------------------------------------------------------------------

/-- A staircase platform record; `pos` models the JS object identity of the
entry (its creation index in `staircasePlatforms`), which step J's
reference-equality `objects.find` resolves through. -/
structure SPlat where
  info : DetectionInfo
  bounds : Bounds
  isGround : Bool
  pos : Nat
deriving DecidableEq, Repr

/-- `jitterWidth` applied to a base width and the float `r` its `rng()`
call returned. -/
def jitterWidthV (base r : ℚ) : ℚ :=
  clampQ (base * (0.7 + r * 0.6)) MIN_PLAT_W MAX_PLAT_W

/-- `jitterY` applied to a base y, the step, and the float of its `rng()`
call. -/
def jitterYV (baseY step r : ℚ) : ℚ :=
  clampQ (baseY + (r - 0.5) * step * 0.4) (EXIT_Y - 0.02) (GROUND_Y - 0.04)

/-- `randomX` applied to its range, the platform width, and the float of
its `rng()` call. -/
def randomXV (lo hi platW r : ℚ) : ℚ :=
  clampQ (lo + r * (max lo (hi - platW) - lo)) X_MIN (X_MAX - platW)

/-- The IEEE double value of `Math.PI` as an exact rational. -/
def piQ : ℚ := 884279719003555 / 281474976710656

/-- The strategy-specific x position of staircase platform `i`
(strategies `0` zigzag, `1` spiral, `2` scattered, else sCurve, in the
order of the source's `STRATEGIES` array; an index past the array makes
every `===` test fail in JS and falls into the final `else`, exactly like
this definition).  `r` is the float of the single `rng()` call each
branch performs. -/
def stairXV (strat : Nat) (sinF : ℚ → ℚ) (pc i : Nat) (w r : ℚ) : ℚ :=
  if strat = 0 then
    if i % 2 = 0 then randomXV X_MIN 0.42 w r else randomXV 0.50 X_MAX w r
  else if strat = 1 then
    if i % 4 = 0 then randomXV X_MIN 0.30 w r
    else if i % 4 = 1 then randomXV 0.65 X_MAX w r
    else if i % 4 = 2 then randomXV 0.25 0.55 w r
    else randomXV 0.45 0.75 w r
  else if strat = 2 then
    randomXV (X_MIN + 0.03) (X_MAX - 0.03) w r
  else
    clampQ
      (lerpQ 0.15 0.80
          ((sinF (((i : ℚ) / (max (pc - 1) 1 : Nat)) * piQ * 2 - piQ / 2) + 1) / 2)
        - w / 2 + (r - 0.5) * 0.08)
      X_MIN (X_MAX - w)

/-- Staircase platform `i`.  Every strategy's loop body makes exactly
three `rng()` calls, in the order width, y, x; the strategy pick consumed
call `0`, so platform `i` consumes calls `3i+1, 3i+2, 3i+3`. -/
def mkStair (strat : Nat) (sinF : ℚ → ℚ) (rng : Nat → ℚ) (pc : Nat)
    (vertStep : ℚ) (i : Nat) (info : DetectionInfo) : SPlat :=
  let w := jitterWidthV info.width (rng (1 + 3 * i))
  let y := jitterYV (GROUND_Y - ((i : ℚ) + 1) * vertStep) vertStep (rng (2 + 3 * i))
  let x := stairXV strat sinF pc i w (rng (3 + 3 * i))
  { info := info, bounds := { x := x, y := y, w := w, h := PLATFORM_THICKNESS }
    isGround := false, pos := i }

/-- The staircase loop (`for i = 0; i < platCount; i++`); the padded info
list always has at least `platCount` entries, so the `getD` default is
never consulted. -/
def staircaseOf (strat : Nat) (sinF : ℚ → ℚ) (rng : Nat → ℚ) (pc : Nat)
    (vertStep : ℚ) (infos : List DetectionInfo) : List SPlat :=
  (List.range pc).map (fun i => mkStair strat sinF rng pc vertStep i (infos.getD i ledgeInfo))

-- ---------------------------------------------------------------------------
-- Bonus platforms
-- ---------------------------------------------------------------------------

/-- The platform a bonus iteration pushes, from its `above`/`below`
neighbours, its width `w = MIN_PLAT_W + rng() * 0.06`, the value `x`
of the side-opposite `randomX` pick, and its creation index `pos`
(`y = (above.y + below.y) / 2`, re-clamped on push exactly as in the
source). -/
def bonusPlat (above below : SPlat) (w x : ℚ) (pos : Nat) : SPlat :=
  { info := { label := "ledge", category := Category.other, confidence := 1
              width := w, enemyAnchor := false }
    bounds := { x := clampQ x X_MIN (X_MAX - w)
                y := clampQ ((above.bounds.y + below.bounds.y) / 2) 0.08 0.88
                w := w, h := PLATFORM_THICKNESS }
    isGround := false, pos := pos }

/-- One bonus-loop iteration chain: `b` counts the remaining iterations,
`k` the next `rng` call index, `l` the current `staircasePlatforms`.
Mirrors `for (b = 0; b < bonusCount && l.length < MAX_PLATFORMS + 2; b++)`
with its three `rng()` calls (width, slot, x) per completed iteration;
the `continue` guard for a missing `above`/`below` entry skips before the
third call. -/
def bonusStep (rng : Nat → ℚ) : Nat → Nat → List SPlat → List SPlat
  | 0, _, l => l
  | b + 1, k, l =>
    if l.length < MAX_PLATFORMS + 2 then
      match l.get? ((⌊rng (k + 1) * ((l.length : ℚ) - 1)⌋).toNat),
          l.get? (min ((⌊rng (k + 1) * ((l.length : ℚ) - 1)⌋).toNat + 1) (l.length - 1)) with
      | some above, some below =>
        bonusStep rng b (k + 3)
          (l ++ [bonusPlat above below (MIN_PLAT_W + rng k * 0.06)
            (if above.bounds.x + above.bounds.w / 2 < 0.5 then
               randomXV 0.55 X_MAX (MIN_PLAT_W + rng k * 0.06) (rng (k + 2))
             else randomXV X_MIN 0.40 (MIN_PLAT_W + rng k * 0.06) (rng (k + 2)))
            l.length])
      | _, _ => bonusStep rng b (k + 2) l
    else l

-- ---------------------------------------------------------------------------
-- Step D: ground platform
-- ---------------------------------------------------------------------------

/-- The full-width ground platform, appended at creation index `pos`. -/
def groundPlat (pos : Nat) : SPlat :=
  { info := { label := "ground", category := Category.furniture
              confidence := 1, width := 1, enemyAnchor := false }
    bounds := { x := 0, y := GROUND_Y, w := 1, h := PLATFORM_THICKNESS }
    isGround := true, pos := pos }

-- ---------------------------------------------------------------------------
-- Step E: platform SceneObjects
-- ---------------------------------------------------------------------------

/-- The SceneObject emitted for a staircase entry; `idx` is the value of
`idCounter` when the object is pushed (platforms are pushed first, in
staircase order, so it equals the entry's list index). -/
def emitPlatform (idx : Nat) (sp : SPlat) : SceneObject :=
  { id := (if sp.isGround then "ground" else "plat") ++ "_" ++ toString idx
    type := ObjType.platform
    label := sp.info.label
    confidence := sp.info.confidence
    bounds_normalized := sp.bounds
    surface_type := some SurfaceType.solid
    category := some sp.info.category
    enemy_spawn_anchor := some sp.info.enemyAnchor }

-- ---------------------------------------------------------------------------
-- Step F: collectibles
-- ---------------------------------------------------------------------------

/-- Placeholder staircase entry.  `realPlatforms` is provably never empty
(the staircase always holds at least `MIN_PLATFORMS` entries), so the
round-robin lookup below never falls back to it; on an empty list the
source would dereference `undefined` and throw. -/
def dummyPlat : SPlat :=
  { info := ledgeInfo, bounds := { x := 0, y := 0, w := 0, h := 0 }
    isGround := false, pos := 0 }

/-- Step F loop: the first five food detections become collectible
objects on round-robin real platforms; `idBase` is the value of
`idCounter` after the platform objects were emitted. -/
def collectibleObjs (idBase : Nat) (foods : List Detection)
    (realPlats : List SPlat) : List SceneObject :=
  (List.range (foods.take 5).length).map (fun i =>
    let det := (foods.take 5).getD i { label := "", category := Category.food
                                       confidence := 0
                                       bounds_normalized := { x := 0, y := 0, w := 0, h := 0 } }
    let plat := realPlats.getD (i % realPlats.length) dummyPlat
    { id := "col" ++ "_" ++ toString (idBase + i)
      type := ObjType.collectible
      label := det.label
      confidence := det.confidence
      bounds_normalized :=
        { x := clampQ (plat.bounds.x + plat.bounds.w * 0.3) 0.02 0.95
          y := plat.bounds.y - 0.04, w := 0.03, h := 0.03 }
      surface_type := none
      category := some Category.food
      enemy_spawn_anchor := none })

-- ---------------------------------------------------------------------------
-- Step H: exit on the highest real platform
-- ---------------------------------------------------------------------------

/-- The ascending-by-`y` order used by `[...realPlatforms].sort((a, b) =>
a.bounds.y - b.bounds.y)`. -/
def byY (a b : SPlat) : Prop := a.bounds.y ≤ b.bounds.y

instance : DecidableRel byY := fun a b =>
  inferInstanceAs (Decidable (a.bounds.y ≤ b.bounds.y))

instance : IsTotal SPlat byY := ⟨fun a b => le_total a.bounds.y b.bounds.y⟩

instance : IsTrans SPlat byY := ⟨fun _ _ _ hab hbc => le_trans hab hbc⟩

/-- A stable ascending sort by `y`; JS `Array.prototype.sort` is required
to be stable, so any stable sort (here insertion sort) produces the same
list. -/
def sortByY (ps : List SPlat) : List SPlat := List.insertionSort byY ps

/-- Step H: the exit sits on `sorted[0]`, the highest (smallest-`y`) real
platform.  The `[]` branch is provably unreachable (the source would
throw there). -/
def exitOf (realPlats : List SPlat) : SpawnPoint :=
  match sortByY realPlats with
  | [] => { x := 0, y := 0 }
  | hp :: _ =>
    { x := clampQ (hp.bounds.x + hp.bounds.w - 0.04) 0.6 0.95
      y := hp.bounds.y - ENTITY_OFFSET_Y }

-- ---------------------------------------------------------------------------
-- Step I: pickups
-- ---------------------------------------------------------------------------

/-- Step I loop: one pickup per real platform while fewer than six exist;
pickup `0` is a health, the rest are coins. -/
def pickupsOf (realPlats : List SPlat) : List PickupSpawn :=
  (List.range (realPlats.take 6).length).map (fun i =>
    let plat := (realPlats.take 6).getD i dummyPlat
    { x := clampQ (plat.bounds.x + plat.bounds.w / 2) 0.05 0.95
      y := plat.bounds.y - ENTITY_OFFSET_Y
      type := if i = 0 then "health" else "coin" })

/-- The `pickups.length < 3` ground-padding branch. -/
def padPickups (ps : List PickupSpawn) : List PickupSpawn :=
  if ps.length < 3 then
    ps ++ [{ x := 0.3, y := GROUND_Y - ENTITY_OFFSET_Y, type := "coin" },
           { x := 0.6, y := GROUND_Y - ENTITY_OFFSET_Y, type := "coin" }]
  else ps

-- ---------------------------------------------------------------------------
-- Step J: enemies and anchor marking
-- ---------------------------------------------------------------------------

/-- Sets `enemy_spawn_anchor` on the platform object at position `pos` of
the objects list.  This models `objects.find(o => o.type === 'platform' &&
o.bounds_normalized === plat.bounds)`: each staircase entry owns a
distinct `bounds` record, so reference equality resolves to the object
emitted from the same entry, which sits at list position `pos` because
step E pushes the platform objects first, in staircase order. -/
def setAnchorAt : List SceneObject → Nat → List SceneObject
  | [], _ => []
  | o :: rest, 0 =>
    (if o.type = ObjType.platform then { o with enemy_spawn_anchor := some true }
     else o) :: rest
  | o :: rest, n + 1 => o :: setAnchorAt rest n

/-- Step J loop over `enemyIndices`: skip a missing platform, otherwise
push a walker spawn above it and mark its platform object (the objects
accumulator is threaded through; the spawns come out in loop order). -/
def enemiesFold (realPlats : List SPlat) :
    List SceneObject → List Nat → List SceneObject × List EnemySpawn
  | objs, [] => (objs, [])
  | objs, idx :: rest =>
    match realPlats.get? idx with
    | none => enemiesFold realPlats objs rest
    | some plat =>
      ((enemiesFold realPlats (setAnchorAt objs plat.pos) rest).1,
       { x := clampQ (plat.bounds.x + plat.bounds.w / 2) 0.05 0.95
         y := plat.bounds.y - ENTITY_OFFSET_Y
         type := "walker" } :: (enemiesFold realPlats (setAnchorAt objs plat.pos) rest).2)

-- ---------------------------------------------------------------------------
-- The assembled builder
-- ---------------------------------------------------------------------------

/-- `platformInfos` after step A. -/
def platformInfosOf (input : DetectionResponse) : List DetectionInfo :=
  (classify input.detections).1

/-- `collectibleDetections` after step A. -/
def collectibleDetsOf (input : DetectionResponse) : List Detection :=
  (classify input.detections).2

/-- `platCount` of step B. -/
def pcOf (input : DetectionResponse) : Nat :=
  platCountOf (platformInfosOf input).length

/-- `vertStep = Math.min(totalRise / (platCount + 1), MAX_JUMP_HEIGHT)`. -/
def vertStepOf (input : DetectionResponse) : ℚ :=
  min ((GROUND_Y - EXIT_Y) / ((pcOf input : ℚ) + 1)) MAX_JUMP_HEIGHT

/-- `strategy = STRATEGIES[Math.floor(rng() * STRATEGIES.length)]`,
as the chosen array index (call `0` of the stream). -/
def stratOf (rng : Nat → ℚ) : Nat := (⌊rng 0 * 4⌋).toNat

/-- The staircase after step C. -/
def stairsOf (rng : Nat → ℚ) (sinF : ℚ → ℚ) (input : DetectionResponse) : List SPlat :=
  staircaseOf (stratOf rng) sinF rng (pcOf input) (vertStepOf input)
    (padInfos (platformInfosOf input) (pcOf input))

/-- `bonusCount = rng() < 0.6 ? 1 : 2` (call `1 + 3*platCount`). -/
def bonusCountOf (rng : Nat → ℚ) (input : DetectionResponse) : Nat :=
  if rng (1 + 3 * pcOf input) < 0.6 then 1 else 2

/-- `staircasePlatforms` after the bonus loop. -/
def withBonusOf (rng : Nat → ℚ) (sinF : ℚ → ℚ) (input : DetectionResponse) : List SPlat :=
  bonusStep rng (bonusCountOf rng input) (2 + 3 * pcOf input) (stairsOf rng sinF input)

/-- `staircasePlatforms` after step D (ground appended). -/
def allPlatsOf (rng : Nat → ℚ) (sinF : ℚ → ℚ) (input : DetectionResponse) : List SPlat :=
  withBonusOf rng sinF input ++ [groundPlat (withBonusOf rng sinF input).length]

/-- `realPlatforms = staircasePlatforms.filter(p => !p.isGround)`. -/
def realPlatsOf (rng : Nat → ℚ) (sinF : ℚ → ℚ) (input : DetectionResponse) : List SPlat :=
  (allPlatsOf rng sinF input).filter (fun p => !p.isGround)

/-- Step E's emitted platform objects (in staircase order, ids
`idCounter = 0, 1, ...`). -/
def platObjsOf (rng : Nat → ℚ) (sinF : ℚ → ℚ) (input : DetectionResponse) : List SceneObject :=
  (List.range (allPlatsOf rng sinF input).length).map
    (fun i => emitPlatform i ((allPlatsOf rng sinF input).getD i dummyPlat))

/-- The objects list after steps E and F (platforms then collectibles). -/
def objsEFOf (rng : Nat → ℚ) (sinF : ℚ → ℚ) (input : DetectionResponse) : List SceneObject :=
  platObjsOf rng sinF input
    ++ collectibleObjs (allPlatsOf rng sinF input).length (collectibleDetsOf input)
         (realPlatsOf rng sinF input)

/-- Step J's `enemyIndices`. -/
def enemyIdxsOf (rng : Nat → ℚ) (sinF : ℚ → ℚ) (input : DetectionResponse) : List Nat :=
  if 4 ≤ (realPlatsOf rng sinF input).length then
    [(realPlatsOf rng sinF input).length / 3, (realPlatsOf rng sinF input).length * 2 / 3]
  else [(realPlatsOf rng sinF input).length / 3]

/-- `buildLevel` with an explicit PRNG output stream and `Math.sin`
model. -/
def buildLevelWith (rng : Nat → ℚ) (sinF : ℚ → ℚ) (input : DetectionResponse) : SceneV1 :=
  let em := enemiesFold (realPlatsOf rng sinF input) (objsEFOf rng sinF input)
    (enemyIdxsOf rng sinF input)
  { version := 1
    image := input.image
    objects := em.1
    spawns :=
      { player := { x := 0.08, y := GROUND_Y - ENTITY_OFFSET_Y }
        exit := exitOf (realPlatsOf rng sinF input)
        enemies := em.2
        pickups := padPickups (pickupsOf (realPlatsOf rng sinF input)) }
    rules := [] }

/-- `buildLevel(input)`: the builder with its real PRNG, seeded from the
detections.  `sinF` is the model of the platform `Math.sin`. -/
def buildLevel (sinF : ℚ → ℚ) (input : DetectionResponse) : SceneV1 :=
  buildLevelWith (mulberryStream (seedPattern input)) sinF input

-- ---------------------------------------------------------------------------
-- PhysicsConfig.ts: tuning ratios
-- ---------------------------------------------------------------------------

/-- The tuning constants of PhysicsConfig.ts (the source's readonly
ratios object). -/
structure PhysRatios where
  playerSize : ℚ
  exitSize : ℚ
  pickupSize : ℚ
  bodyWidthFrac : ℚ
  bodyHeightFrac : ℚ
  gravityMultiplier : ℚ
  defaultJumpHeightFraction : ℚ
  jumpMargin : ℚ
  minJumpFraction : ℚ
  maxJumpFraction : ℚ
  speedFraction : ℚ
  minPlatformWidthFraction : ℚ
  minPlatformHeightFraction : ℚ

/-- The values PhysicsConfig.ts assigns (`bodyWidthRatio`/
`bodyHeightRatio` in the source). -/
def ratios : PhysRatios :=
  { playerSize := 0.06, exitSize := 0.06, pickupSize := 0.04
    bodyWidthFrac := 0.58, bodyHeightFrac := 0.75
    gravityMultiplier := 1.2
    defaultJumpHeightFraction := 0.35
    jumpMargin := 0.15
    minJumpFraction := 0.15, maxJumpFraction := 0.45
    speedFraction := 0.40
    minPlatformWidthFraction := 0.025
    minPlatformHeightFraction := 0.008 }

-- ---------------------------------------------------------------------------
-- Scene gap analysis (`analyzeSceneGaps`)
-- ---------------------------------------------------------------------------

/-- The top edges of the platform-type objects of an objects list, in
order (`obj.bounds_normalized.y` for every `obj.type === 'platform'`). -/
def platYs (objs : List SceneObject) : List ℚ :=
  objs.filterMap
    (fun o => if o.type = ObjType.platform then some o.bounds_normalized.y else none)

/-- The landing y-position list the analyzer collects, in push order:
the ground `1.0`, every platform object's top edge, the exit y. -/
def yPositionsOf (scene : SceneV1) : List ℚ :=
  1 :: (platYs scene.objects ++ [scene.spawns.exit.y])

/-- The analyzer's ascending sort (JS stable sort with comparator
`(a, b) => a - b`). -/
def sortYs (ys : List ℚ) : List ℚ := List.insertionSort (· ≤ ·) ys

/-- The analyzer's scan for the largest consecutive gap
(`maxGap` starts at `0`; `if (gap > maxGap) maxGap = gap`). -/
def maxGapScan : ℚ → List ℚ → ℚ
  | m, [] => m
  | _m, [_] => _m
  | m, a :: b :: rest => maxGapScan (max m (b - a)) (b :: rest)

/-- `analyzeSceneGaps`: largest consecutive gap of the sorted landing
positions, with margin, clamped into
`[minJumpFraction, maxJumpFraction]`. -/
def analyzeSceneGaps (scene : SceneV1) : ℚ :=
  let maxGap := maxGapScan 0 (sortYs (yPositionsOf scene))
  let required := maxGap * (1 + ratios.jumpMargin)
  min (max required ratios.minJumpFraction) ratios.maxJumpFraction

-- ---------------------------------------------------------------------------
-- `computePhysics`
-- ---------------------------------------------------------------------------

/-- The jump fraction `computePhysics` uses: adaptive when scene data is
present, the fallback otherwise. -/
def jumpFractionOf (sceneData : Option SceneV1) : ℚ :=
  match sceneData with
  | some s => analyzeSceneGaps s
  | none => ratios.defaultJumpHeightFraction

/-- The result record of `computePhysics`.  `jumpVelocity` is a real
number because the source takes a square root; every other field is an
exact rational or integer. -/
structure ComputedPhysics where
  gravityY : ℚ
  playerSpeed : ℚ
  jumpVelocity : ℝ
  playerSizePx : Int
  playerBodyWidth : Int
  playerBodyHeight : Int
  exitSizePx : Int
  pickupSizePx : Int
  minPlatformWidth : ℚ
  minPlatformHeight : ℚ

/-- `computePhysics(worldW, worldH, sceneData?)`. -/
noncomputable def computePhysics (worldW worldH : ℚ)
    (sceneData : Option SceneV1) : ComputedPhysics :=
  let playerSizePx := max (jsRound (ratios.playerSize * worldH)) 16
  let exitSizePx := max (jsRound (ratios.exitSize * worldH)) 16
  let pickupSizePx := max (jsRound (ratios.pickupSize * worldH)) 12
  let gravityY := ratios.gravityMultiplier * worldH
  let jumpFraction := jumpFractionOf sceneData
  let jumpH := jumpFraction * worldH
  { gravityY := gravityY
    playerSpeed := ratios.speedFraction * worldW
    jumpVelocity := -Real.sqrt (2 * (gravityY : ℝ) * (jumpH : ℝ))
    playerSizePx := playerSizePx
    playerBodyWidth := jsRound ((playerSizePx : ℚ) * ratios.bodyWidthFrac)
    playerBodyHeight := jsRound ((playerSizePx : ℚ) * ratios.bodyHeightFrac)
    exitSizePx := exitSizePx
    pickupSizePx := pickupSizePx
    minPlatformWidth := ratios.minPlatformWidthFraction * worldW
    minPlatformHeight := ratios.minPlatformHeightFraction * worldH }

-- ---------------------------------------------------------------------------
-- Small derived counters used by the claims
-- ---------------------------------------------------------------------------

/-- Number of platform-type objects in a scene. -/
def countPlatformObjs (scene : SceneV1) : Nat :=
  (scene.objects.filter (fun o => o.type = ObjType.platform)).length

/-- Number of collectible-type objects in a scene. -/
def countCollectibleObjs (scene : SceneV1) : Nat :=
  (scene.objects.filter (fun o => o.type = ObjType.collectible)).length

/-- A fixed model of `Math.sin` usable for concrete evaluation (its value
is irrelevant: every use is inside a `clamp` whose bounds do not depend
on it). -/
def sinZero : ℚ → ℚ := fun _ => 0

-- ---------------------------------------------------------------------------
-- Definitions used by the verification layer
-- ---------------------------------------------------------------------------

/-- Range property of a PRNG output stream: every float lies in `[0, 1)`.
The real mulberry32 stream satisfies it (proved below). -/
def RngOK (rng : Nat → ℚ) : Prop := ∀ k, 0 ≤ rng k ∧ rng k < 1

/-- The (unclamped) y value the staircase loop computes for platform `i`:
`GROUND_Y - (i+1)*vertStep + (rng_y - 0.5)*vertStep*0.4`, with `rng_y`
the float of the `y` jitter call of iteration `i`.  The `jitterY` clamp
is provably inactive on it. -/
def stairYval (rng : Nat → ℚ) (vs : ℚ) (i : Nat) : ℚ :=
  GROUND_Y - ((i : ℚ) + 1) * vs + (rng (2 + 3 * i) - 0.5) * vs * 0.4

/-- "No big holes" property of a value list: any value with some value
strictly above it has one within `G` above it.  Adjacent gaps of the
sorted list are then at most `G`. -/
def WithinG (l : List ℚ) (G : ℚ) : Prop :=
  ∀ p ∈ l, (∃ q ∈ l, p < q) → ∃ q ∈ l, p < q ∧ q ≤ p + G

/-- Concrete input: a 100x100 photo with no detections. -/
def inputEmpty100 : DetectionResponse :=
  { image := { w := 100, h := 100 }, detections := [] }

/-- Concrete input: a 105x100 photo with eight furniture detections
(labels `a`, `aa`, ..., eight `a`s). -/
def inputEight : DetectionResponse :=
  { image := { w := 105, h := 100 }
    detections := (List.range 8).map (fun i =>
      { label := String.mk (List.replicate (i + 1) 'a')
        category := Category.furniture
        confidence := 0.9
        bounds_normalized := { x := 0.1, y := 0.2, w := 0.3, h := 0.2 } }) }

/-- Concrete scene with no platform objects, for exercising the physics
calculator. -/
def sceneBare : SceneV1 :=
  { version := 1, image := { w := 100, h := 100 }, objects := []
    spawns := { player := { x := 0.08, y := 0.86 }, exit := { x := 0.5, y := 0.5 }
                enemies := [], pickups := [] }
    rules := [] }

lemma shiftRight_self_le (x k : Nat) : x >>> k ≤ x := by
  rw [Nat.shiftRight_eq_div_pow]
  exact Nat.div_le_self x (2 ^ k)

lemma mulberryOut_lt (s : Nat) : mulberryOut s < 2 ^ 32 := by
  unfold mulberryOut
  have h32 : (0 : Nat) < 2 ^ 32 := by norm_num
  have h1 : ((s ^^^ (s >>> 15)) * (1 ||| s)) % 2 ^ 32 < 2 ^ 32 := Nat.mod_lt _ h32
  set t1 := ((s ^^^ (s >>> 15)) * (1 ||| s)) % 2 ^ 32 with ht1
  have h2 : ((t1 + ((t1 ^^^ (t1 >>> 7)) * (61 ||| t1)) % 2 ^ 32) % 2 ^ 32) < 2 ^ 32 :=
    Nat.mod_lt _ h32
  have h3 : ((t1 + ((t1 ^^^ (t1 >>> 7)) * (61 ||| t1)) % 2 ^ 32) % 2 ^ 32) ^^^ t1 < 2 ^ 32 :=
    Nat.xor_lt_two_pow h2 h1
  set t2 := ((t1 + ((t1 ^^^ (t1 >>> 7)) * (61 ||| t1)) % 2 ^ 32) % 2 ^ 32) ^^^ t1 with ht2
  exact Nat.xor_lt_two_pow h3 (lt_of_le_of_lt (shiftRight_self_le t2 14) h3)

lemma mulberryStream_range (seed k : Nat) :
    0 ≤ mulberryStream seed k ∧ mulberryStream seed k < 1 := by
  unfold mulberryStream
  constructor
  · exact div_nonneg (Nat.cast_nonneg _) (by norm_num)
  · rw [div_lt_one (by norm_num)]
    have h := mulberryOut_lt (mulberryStep^[k + 1] seed)
    exact_mod_cast lt_of_lt_of_le h (by norm_num)

lemma mulberryStream_ok (seed : Nat) : RngOK (mulberryStream seed) :=
  fun k => mulberryStream_range seed k

lemma le_clampQ (v lo hi : ℚ) : lo ≤ clampQ v lo hi := le_max_left _ _

lemma clampQ_le (v lo hi : ℚ) (h : lo ≤ hi) : clampQ v lo hi ≤ hi :=
  max_le h (min_le_left _ _)

lemma clampQ_eq_self (v lo hi : ℚ) (h1 : lo ≤ v) (h2 : v ≤ hi) :
    clampQ v lo hi = v := by
  unfold clampQ
  rw [min_eq_right h2, max_eq_right h1]

lemma platCountOf_ge (n : Nat) : 5 ≤ platCountOf n := by
  simp [platCountOf, MIN_PLATFORMS]

lemma platCountOf_le (n : Nat) : platCountOf n ≤ 8 := by
  simp [platCountOf, MIN_PLATFORMS, MAX_PLATFORMS]

lemma pcOf_ge (input : DetectionResponse) : 5 ≤ pcOf input := platCountOf_ge _

lemma pcOf_le (input : DetectionResponse) : pcOf input ≤ 8 := platCountOf_le _

lemma vertStepOf_eq (input : DetectionResponse) :
    vertStepOf input = (GROUND_Y - EXIT_Y) / ((pcOf input : ℚ) + 1) := by
  have h5 := pcOf_ge input
  have h6 : (6 : ℚ) ≤ (pcOf input : ℚ) + 1 := by
    have h : (5 : ℚ) ≤ (pcOf input : ℚ) := by exact_mod_cast h5
    linarith
  unfold vertStepOf
  apply min_eq_left
  rw [div_le_iff₀ (by linarith)]
  rw [GROUND_Y, EXIT_Y, MAX_JUMP_HEIGHT]
  nlinarith

lemma vertStepOf_mul (input : DetectionResponse) :
    vertStepOf input * ((pcOf input : ℚ) + 1) = GROUND_Y - EXIT_Y := by
  have h6 : (0 : ℚ) < (pcOf input : ℚ) + 1 := by positivity
  rw [vertStepOf_eq, div_mul_cancel₀ _ (ne_of_gt h6)]

lemma vertStepOf_pos (input : DetectionResponse) : 0 < vertStepOf input := by
  rw [vertStepOf_eq]
  have h : (0 : ℚ) < (pcOf input : ℚ) + 1 := by positivity
  rw [GROUND_Y, EXIT_Y]
  positivity

lemma vertStepOf_ge (input : DetectionResponse) : 37 / 450 ≤ vertStepOf input := by
  have h8 := pcOf_le input
  have h9 : (pcOf input : ℚ) + 1 ≤ 9 := by
    have h : (pcOf input : ℚ) ≤ 8 := by exact_mod_cast h8
    linarith
  have hm := vertStepOf_mul input
  have hp := vertStepOf_pos input
  rw [GROUND_Y, EXIT_Y] at hm
  nlinarith

lemma vertStepOf_le (input : DetectionResponse) : vertStepOf input ≤ 37 / 300 := by
  have h5 := pcOf_ge input
  have h6 : (6 : ℚ) ≤ (pcOf input : ℚ) + 1 := by
    have h : (5 : ℚ) ≤ (pcOf input : ℚ) := by exact_mod_cast h5
    linarith
  have hm := vertStepOf_mul input
  have hp := vertStepOf_pos input
  rw [GROUND_Y, EXIT_Y] at hm
  nlinarith

-- ---------------------------------------------------------------------------
-- Staircase structure
-- ---------------------------------------------------------------------------

lemma stairsOf_length (rng : Nat → ℚ) (sinF : ℚ → ℚ) (input : DetectionResponse) :
    (stairsOf rng sinF input).length = pcOf input := by
  simp [stairsOf, staircaseOf]

lemma stairsOf_get_eq (rng : Nat → ℚ) (sinF : ℚ → ℚ) (input : DetectionResponse)
    {i : Nat} (hi : i < pcOf input) :
    (stairsOf rng sinF input).get? i =
      some (mkStair (stratOf rng) sinF rng (pcOf input) (vertStepOf input) i
        ((padInfos (platformInfosOf input) (pcOf input)).getD i ledgeInfo)) := by
  simp only [stairsOf, staircaseOf]
  rw [List.get?_eq_getElem?, List.getElem?_map, List.getElem?_range hi]
  rfl

lemma mem_stairsOf (rng : Nat → ℚ) (sinF : ℚ → ℚ) (input : DetectionResponse)
    {p : SPlat} (hp : p ∈ stairsOf rng sinF input) :
    ∃ i < pcOf input,
      p = mkStair (stratOf rng) sinF rng (pcOf input) (vertStepOf input) i
        ((padInfos (platformInfosOf input) (pcOf input)).getD i ledgeInfo) := by
  simp only [stairsOf, staircaseOf, List.mem_map, List.mem_range] at hp
  obtain ⟨i, hi, hpe⟩ := hp
  exact ⟨i, hi, hpe.symm⟩

lemma mkStair_y (strat : Nat) (sinF : ℚ → ℚ) (rng : Nat → ℚ) (pc : Nat)
    (vs : ℚ) (i : Nat) (info : DetectionInfo) :
    (mkStair strat sinF rng pc vs i info).bounds.y =
      jitterYV (GROUND_Y - ((i : ℚ) + 1) * vs) vs (rng (2 + 3 * i)) := rfl

lemma mkStair_w (strat : Nat) (sinF : ℚ → ℚ) (rng : Nat → ℚ) (pc : Nat)
    (vs : ℚ) (i : Nat) (info : DetectionInfo) :
    (mkStair strat sinF rng pc vs i info).bounds.w =
      jitterWidthV info.width (rng (1 + 3 * i)) := rfl

lemma mkStair_pos (strat : Nat) (sinF : ℚ → ℚ) (rng : Nat → ℚ) (pc : Nat)
    (vs : ℚ) (i : Nat) (info : DetectionInfo) :
    (mkStair strat sinF rng pc vs i info).pos = i := rfl

lemma mkStair_isGround (strat : Nat) (sinF : ℚ → ℚ) (rng : Nat → ℚ) (pc : Nat)
    (vs : ℚ) (i : Nat) (info : DetectionInfo) :
    (mkStair strat sinF rng pc vs i info).isGround = false := rfl

/-- Bounds of the unclamped staircase y value, for `i < pc`, `pc ∈ [5,8]`
and the step relation `vs * (pc + 1) = 0.74`. -/
lemma stairYval_bounds (rng : Nat → ℚ) (hr : RngOK rng) (vs : ℚ) (pc : Nat)
    (hvs : vs * ((pc : ℚ) + 1) = GROUND_Y - EXIT_Y) (hvsp : 0 < vs)
    {i : Nat} (hi : i < pc) :
    0.18 + 0.8 * vs ≤ stairYval rng vs i ∧ stairYval rng vs i ≤ 0.92 - 0.8 * vs := by
  obtain ⟨hr0, hr1⟩ := hr (2 + 3 * i)
  have hiq : ((i : ℚ) + 1) ≤ (pc : ℚ) := by
    have : (i : ℚ) + 1 ≤ (pc : ℚ) := by exact_mod_cast hi
    exact this
  have hiq1 : (1 : ℚ) ≤ (i : ℚ) + 1 := by
    have : (0 : ℚ) ≤ (i : ℚ) := Nat.cast_nonneg i
    linarith
  have hmul_le : ((i : ℚ) + 1) * vs ≤ (pc : ℚ) * vs :=
    mul_le_mul_of_nonneg_right hiq (le_of_lt hvsp)
  have hmul_ge : vs ≤ ((i : ℚ) + 1) * vs := by nlinarith
  have hpcvs : (pc : ℚ) * vs = (GROUND_Y - EXIT_Y) - vs := by nlinarith
  rw [GROUND_Y, EXIT_Y] at hpcvs
  unfold stairYval
  rw [GROUND_Y]
  constructor
  · nlinarith
  · nlinarith

/-- The `jitterY` clamp never fires on a staircase platform: the builder's
step geometry keeps the jittered y strictly inside
`[EXIT_Y - 0.02, GROUND_Y - 0.04]`. -/
lemma jitterYV_eq_stairYval (rng : Nat → ℚ) (hr : RngOK rng) (vs : ℚ) (pc : Nat)
    (hvs : vs * ((pc : ℚ) + 1) = GROUND_Y - EXIT_Y) (hvsp : 0 < vs)
    (hvsge : 37 / 450 ≤ vs) {i : Nat} (hi : i < pc) :
    jitterYV (GROUND_Y - ((i : ℚ) + 1) * vs) vs (rng (2 + 3 * i)) =
      stairYval rng vs i := by
  have hb := stairYval_bounds rng hr vs pc hvs hvsp hi
  have he : GROUND_Y - ((i : ℚ) + 1) * vs + (rng (2 + 3 * i) - 0.5) * vs * 0.4 =
      stairYval rng vs i := rfl
  unfold jitterYV
  rw [he]
  apply clampQ_eq_self
  · rw [EXIT_Y]
    nlinarith [hb.1]
  · rw [GROUND_Y]
    nlinarith [hb.2]

/-- Strict descent of the staircase y values: a later platform is strictly
lower-on-screen... strictly higher `y`?  No: `y` grows downward, platform
`j > i` has the larger index and the smaller base, so
`stairYval j < stairYval i`. -/
lemma stairYval_strict_anti (rng : Nat → ℚ) (hr : RngOK rng) (vs : ℚ)
    (hvsp : 0 < vs) {i j : Nat} (hij : i < j) :
    stairYval rng vs j < stairYval rng vs i := by
  obtain ⟨hi0, hi1⟩ := hr (2 + 3 * i)
  obtain ⟨hj0, hj1⟩ := hr (2 + 3 * j)
  have hij' : (i : ℚ) + 1 ≤ (j : ℚ) := by exact_mod_cast hij
  unfold stairYval
  nlinarith

/-- Adjacent staircase y values differ by at most `1.4 * vertStep`. -/
lemma stairYval_gap_le (rng : Nat → ℚ) (hr : RngOK rng) (vs : ℚ)
    (hvsp : 0 < vs) (i : Nat) :
    stairYval rng vs i - stairYval rng vs (i + 1) ≤ 1.4 * vs := by
  obtain ⟨hi0, hi1⟩ := hr (2 + 3 * i)
  obtain ⟨hj0, hj1⟩ := hr (2 + 3 * (i + 1))
  unfold stairYval
  push_cast
  nlinarith

/-- `jitterWidth` output range. -/
lemma jitterWidthV_mem (base r : ℚ) :
    MIN_PLAT_W ≤ jitterWidthV base r ∧ jitterWidthV base r ≤ MAX_PLAT_W := by
  unfold jitterWidthV
  refine ⟨le_clampQ _ _ _, clampQ_le _ _ _ ?_⟩
  rw [MIN_PLAT_W, MAX_PLAT_W]
  norm_num

/-- `randomX` output range (the clamp interval is nonempty whenever
`w ≤ 0.94`). -/
lemma randomXV_mem (lo hi platW r : ℚ) (hw : platW ≤ 0.94) :
    X_MIN ≤ randomXV lo hi platW r ∧ randomXV lo hi platW r ≤ X_MAX - platW := by
  unfold randomXV
  refine ⟨le_clampQ _ _ _, clampQ_le _ _ _ ?_⟩
  rw [X_MIN, X_MAX]
  linarith

/-- Every strategy's x value lies in `[X_MIN, X_MAX - w]`. -/
lemma stairXV_mem (strat : Nat) (sinF : ℚ → ℚ) (pc i : Nat) (w r : ℚ)
    (hw : w ≤ 0.94) :
    X_MIN ≤ stairXV strat sinF pc i w r ∧ stairXV strat sinF pc i w r ≤ X_MAX - w := by
  have hclamp : X_MIN ≤ X_MAX - w := by
    rw [X_MIN, X_MAX]
    linarith
  unfold stairXV
  split_ifs
  case _ => exact randomXV_mem _ _ _ _ hw
  case _ => exact randomXV_mem _ _ _ _ hw
  case _ => exact randomXV_mem _ _ _ _ hw
  case _ => exact randomXV_mem _ _ _ _ hw
  case _ => exact randomXV_mem _ _ _ _ hw
  case _ => exact randomXV_mem _ _ _ _ hw
  case _ => exact randomXV_mem _ _ _ _ hw
  case _ => exact ⟨le_clampQ _ _ _, clampQ_le _ _ _ hclamp⟩

-- ---------------------------------------------------------------------------
-- Bonus-loop lemmas
-- ---------------------------------------------------------------------------

/-- The slot index drawn by a bonus iteration is at most `len - 2`. -/
lemma bonus_slot_lt {rng : Nat → ℚ} (hr : RngOK rng) (k len : Nat)
    (h2 : 2 ≤ len) : (⌊rng k * ((len : ℚ) - 1)⌋).toNat < len - 1 := by
  obtain ⟨h0, h1⟩ := hr k
  have hlen1 : (1 : ℚ) ≤ (len : ℚ) - 1 := by
    have h : (2 : ℚ) ≤ (len : ℚ) := by exact_mod_cast h2
    linarith
  have hge : 0 ≤ ⌊rng k * ((len : ℚ) - 1)⌋ := by
    apply Int.floor_nonneg.mpr
    nlinarith
  have hlt : ⌊rng k * ((len : ℚ) - 1)⌋ < (len : ℤ) - 1 := by
    rw [Int.floor_lt]
    push_cast
    nlinarith
  omega

/-- The bonus loop only appends. -/
lemma bonusStep_append (rng : Nat → ℚ) :
    ∀ (b k : Nat) (l : List SPlat), ∃ t, bonusStep rng b k l = l ++ t := by
  intro b
  induction b with
  | zero => exact fun k l => ⟨[], by simp [bonusStep]⟩
  | succ b ih =>
    intro k l
    rw [bonusStep]
    split
    · split
      · obtain ⟨t, ht⟩ := ih (k + 3) _
        rw [ht]
        exact ⟨_, by rw [List.append_assoc]⟩
      · exact ih (k + 2) l
    · exact ⟨[], by simp⟩

/-- Entries already present are untouched by the bonus loop. -/
lemma bonusStep_get_front (rng : Nat → ℚ) (b k : Nat) (l : List SPlat)
    {j : Nat} (hj : j < l.length) :
    (bonusStep rng b k l).get? j = l.get? j := by
  obtain ⟨t, ht⟩ := bonusStep_append rng b k l
  rw [ht, List.get?_append hj]

/-- With an in-range PRNG and a list that is neither too short nor full,
every bonus iteration appends exactly one platform. -/
lemma bonusStep_length {rng : Nat → ℚ} (hr : RngOK rng) :
    ∀ (b k : Nat) (l : List SPlat), 2 ≤ l.length →
      l.length + b ≤ MAX_PLATFORMS + 2 →
      (bonusStep rng b k l).length = l.length + b := by
  intro b
  induction b with
  | zero => intro k l _ _; simp [bonusStep]
  | succ b ih =>
    intro k l h2 hcap
    have hmp : MAX_PLATFORMS = 8 := rfl
    rw [bonusStep]
    rw [if_pos (by omega)]
    have hslot := bonus_slot_lt hr (k + 1) l.length h2
    have hs1 : (⌊rng (k + 1) * ((l.length : ℚ) - 1)⌋).toNat < l.length := by omega
    have hs2 : min ((⌊rng (k + 1) * ((l.length : ℚ) - 1)⌋).toNat + 1) (l.length - 1)
        < l.length := by omega
    rw [List.get?_eq_get hs1, List.get?_eq_get hs2]
    dsimp only
    rw [ih (k + 3) _ (by simp; omega) (by simp; omega)]
    simp
    omega

/-- Membership invariant of the bonus loop: a property holding on every
current entry and preserved by pushing any `bonusPlat` built from two
current entries holds on every entry of the final list. -/
lemma bonusStep_invariant (P : SPlat → Prop) {rng : Nat → ℚ} (hr : RngOK rng)
    (hstep : ∀ (above below : SPlat) (x : ℚ) (pos : Nat) (r : ℚ), 0 ≤ r → r < 1 →
      P above → P below → P (bonusPlat above below (MIN_PLAT_W + r * 0.06) x pos)) :
    ∀ (b k : Nat) (l : List SPlat), (∀ p ∈ l, P p) →
      ∀ p ∈ bonusStep rng b k l, P p := by
  intro b
  induction b with
  | zero =>
    intro k l hl p hp
    rw [bonusStep] at hp
    exact hl p hp
  | succ b ih =>
    intro k l hl p hp
    rw [bonusStep] at hp
    split at hp
    · split at hp
      next above below h1 h2 =>
        refine ih (k + 3) _ ?_ p hp
        intro q hq
        rcases List.mem_append.mp hq with hq | hq
        · exact hl q hq
        · rcases List.mem_singleton.mp hq with rfl
          obtain ⟨hr0, hr1⟩ := hr k
          exact hstep above below _ _ _ hr0 hr1
            (hl _ (List.get?_mem h1)) (hl _ (List.get?_mem h2))
      next _ _ => exact ih (k + 2) l hl p hp
    · exact hl p hp

lemma bonusPlat_y (above below : SPlat) (w x : ℚ) (pos : Nat) :
    (bonusPlat above below w x pos).bounds.y =
      clampQ ((above.bounds.y + below.bounds.y) / 2) 0.08 0.88 := rfl

/-- Position/height invariant of the bonus loop: list positions stay
creation indices, every y stays in `[ymin, ymax]`, and the strict lower
bound `ymin` stays attained only by the entry created at index `t`. -/
lemma bonusStep_y_inv {rng : Nat → ℚ} (hr : RngOK rng) (ymin ymax : ℚ) (t : Nat)
    (hmin : 0.08 ≤ ymin) (hmax : ymax ≤ 0.88) (ht : 1 ≤ t) :
    ∀ (b k : Nat) (l : List SPlat),
      (∀ j p, l.get? j = some p → p.pos = j) →
      t < l.length →
      (∀ p ∈ l, ymin ≤ p.bounds.y ∧ p.bounds.y ≤ ymax ∧ (p.pos = t ∨ ymin < p.bounds.y)) →
      (∀ j p, (bonusStep rng b k l).get? j = some p → p.pos = j) ∧
        (∀ p ∈ bonusStep rng b k l,
          ymin ≤ p.bounds.y ∧ p.bounds.y ≤ ymax ∧ (p.pos = t ∨ ymin < p.bounds.y)) := by
  intro b
  induction b with
  | zero =>
    intro k l hpos htl hy
    rw [bonusStep]
    exact ⟨hpos, hy⟩
  | succ b ih =>
    intro k l hpos htl hy
    rw [bonusStep]
    split
    · split
      next above below h1 h2 =>
        have h2len : 2 ≤ l.length := by omega
        have hslot := bonus_slot_lt hr (k + 1) l.length h2len
        have hmin_eq : min ((⌊rng (k + 1) * ((l.length : ℚ) - 1)⌋).toNat + 1) (l.length - 1)
            = (⌊rng (k + 1) * ((l.length : ℚ) - 1)⌋).toNat + 1 := by omega
        have habove_pos : above.pos = (⌊rng (k + 1) * ((l.length : ℚ) - 1)⌋).toNat :=
          hpos _ _ h1
        have hbelow_pos : below.pos = (⌊rng (k + 1) * ((l.length : ℚ) - 1)⌋).toNat + 1 := by
          rw [hmin_eq] at h2
          exact hpos _ _ h2
        have hne : above.pos ≠ below.pos := by omega
        have hya := hy above (List.get?_mem h1)
        have hyb := hy below (List.get?_mem h2)
        have havg1 : ymin < (above.bounds.y + below.bounds.y) / 2 := by
          rcases hya.2.2 with hpa | hlta
          · rcases hyb.2.2 with hpb | hltb
            · exact absurd (hpa.trans hpb.symm) hne
            · have h := hya.1
              linarith
          · have h := hyb.1
            linarith
        have havg2 : (above.bounds.y + below.bounds.y) / 2 ≤ ymax := by
          have ha := hya.2.1
          have hb := hyb.2.1
          linarith
        have hclampy : ∀ x w pos, (bonusPlat above below w x pos).bounds.y =
            (above.bounds.y + below.bounds.y) / 2 := by
          intro x w pos
          rw [bonusPlat_y]
          exact clampQ_eq_self _ _ _ (by linarith) (by linarith)
        apply ih (k + 3)
        · intro j p hj
          rcases Nat.lt_or_ge j l.length with hlt | hge
          · exact hpos j p (by rwa [List.get?_append hlt] at hj)
          · rw [List.get?_append_right hge] at hj
            rcases Nat.lt_or_ge (j - l.length) 1 with hd | hd
            · have h0 : j - l.length = 0 := by omega
              have hj2 : j = l.length := by omega
              rw [h0] at hj
              simp only [List.get?] at hj
              cases hj
              simp [bonusPlat, hj2]
            · rcases Nat.exists_eq_add_of_le hd with ⟨m, hm⟩
              rw [hm, Nat.add_comm 1 m] at hj
              simp at hj
        · simp only [List.length_append, List.length_singleton]
          omega
        · intro q hq
          rcases List.mem_append.mp hq with hq | hq
          · exact hy q hq
          · rcases List.mem_singleton.mp hq with rfl
            rw [hclampy]
            exact ⟨le_of_lt havg1, havg2, Or.inr havg1⟩
      next _ _ => exact ih (k + 2) l hpos htl hy
    · exact ⟨hpos, hy⟩

/-- `jitterY` output range. -/
lemma jitterYV_mem (baseY step r : ℚ) :
    EXIT_Y - 0.02 ≤ jitterYV baseY step r ∧ jitterYV baseY step r ≤ GROUND_Y - 0.04 := by
  unfold jitterYV
  refine ⟨le_clampQ _ _ _, clampQ_le _ _ _ ?_⟩
  rw [EXIT_Y, GROUND_Y]
  norm_num

-- ---------------------------------------------------------------------------
-- Staircase-stage lemmas
-- ---------------------------------------------------------------------------

lemma stairsOf_pos_inv (rng : Nat → ℚ) (sinF : ℚ → ℚ) (input : DetectionResponse) :
    ∀ (j : Nat) (p : SPlat), (stairsOf rng sinF input).get? j = some p → p.pos = j := by
  intro j p h
  by_cases hj : j < pcOf input
  · rw [stairsOf_get_eq rng sinF input hj] at h
    cases h
    rfl
  · rw [List.get?_eq_none.mpr (by rw [stairsOf_length]; omega)] at h
    cases h

lemma stairsOf_y (rng : Nat → ℚ) (sinF : ℚ → ℚ) (input : DetectionResponse)
    (hr : RngOK rng) {j : Nat} {p : SPlat}
    (h : (stairsOf rng sinF input).get? j = some p) :
    p.bounds.y = stairYval rng (vertStepOf input) j := by
  by_cases hj : j < pcOf input
  · rw [stairsOf_get_eq rng sinF input hj] at h
    cases h
    rw [mkStair_y]
    exact jitterYV_eq_stairYval rng hr (vertStepOf input) (pcOf input)
      (vertStepOf_mul input) (vertStepOf_pos input) (vertStepOf_ge input) hj
  · rw [List.get?_eq_none.mpr (by rw [stairsOf_length]; omega)] at h
    cases h

lemma stairsOf_y_inv (rng : Nat → ℚ) (sinF : ℚ → ℚ) (input : DetectionResponse)
    (hr : RngOK rng) :
    ∀ p ∈ stairsOf rng sinF input,
      stairYval rng (vertStepOf input) (pcOf input - 1) ≤ p.bounds.y ∧
      p.bounds.y ≤ stairYval rng (vertStepOf input) 0 ∧
      (p.pos = pcOf input - 1 ∨
        stairYval rng (vertStepOf input) (pcOf input - 1) < p.bounds.y) := by
  intro p hp
  obtain ⟨i, hi, rfl⟩ := mem_stairsOf rng sinF input hp
  have hy : (mkStair (stratOf rng) sinF rng (pcOf input) (vertStepOf input) i
      ((padInfos (platformInfosOf input) (pcOf input)).getD i ledgeInfo)).bounds.y =
      stairYval rng (vertStepOf input) i := by
    rw [mkStair_y]
    exact jitterYV_eq_stairYval rng hr (vertStepOf input) (pcOf input)
      (vertStepOf_mul input) (vertStepOf_pos input) (vertStepOf_ge input) hi
  rw [hy, mkStair_pos]
  have hvsp := vertStepOf_pos input
  rcases Nat.lt_or_ge i (pcOf input - 1) with hlt | hge
  · have h1 : stairYval rng (vertStepOf input) (pcOf input - 1) <
        stairYval rng (vertStepOf input) i :=
      stairYval_strict_anti rng hr (vertStepOf input) hvsp hlt
    rcases Nat.eq_zero_or_pos i with rfl | hpos
    · exact ⟨le_of_lt h1, le_refl _, Or.inr h1⟩
    · have h2 : stairYval rng (vertStepOf input) i < stairYval rng (vertStepOf input) 0 :=
        stairYval_strict_anti rng hr (vertStepOf input) hvsp hpos
      exact ⟨le_of_lt h1, le_of_lt h2, Or.inr h1⟩
  · have hieq : i = pcOf input - 1 := by
      have := pcOf_ge input
      omega
    rw [hieq]
    have h2 : stairYval rng (vertStepOf input) (pcOf input - 1) <
        stairYval rng (vertStepOf input) 0 := by
      apply stairYval_strict_anti rng hr (vertStepOf input) hvsp
      have := pcOf_ge input
      omega
    exact ⟨le_refl _, le_of_lt h2, Or.inl rfl⟩

/-- Lower numeric bound of the staircase minimum y. -/
lemma stair_ymin_ge (rng : Nat → ℚ) (input : DetectionResponse) (hr : RngOK rng) :
    0.18 + 0.8 * vertStepOf input ≤
      stairYval rng (vertStepOf input) (pcOf input - 1) := by
  have h5 := pcOf_ge input
  exact (stairYval_bounds rng hr (vertStepOf input) (pcOf input)
    (vertStepOf_mul input) (vertStepOf_pos input) (by omega)).1

/-- Upper numeric bound of the staircase maximum y. -/
lemma stair_ymax_le (rng : Nat → ℚ) (input : DetectionResponse) (hr : RngOK rng) :
    stairYval rng (vertStepOf input) 0 ≤ 0.92 - 0.8 * vertStepOf input := by
  have h5 := pcOf_ge input
  exact (stairYval_bounds rng hr (vertStepOf input) (pcOf input)
    (vertStepOf_mul input) (vertStepOf_pos input) (by omega)).2

-- ---------------------------------------------------------------------------
-- Bonus-stage lemmas, specialised to the pipeline
-- ---------------------------------------------------------------------------

lemma bonusCountOf_ge (rng : Nat → ℚ) (input : DetectionResponse) :
    1 ≤ bonusCountOf rng input := by
  unfold bonusCountOf
  split <;> norm_num

lemma bonusCountOf_le (rng : Nat → ℚ) (input : DetectionResponse) :
    bonusCountOf rng input ≤ 2 := by
  unfold bonusCountOf
  split <;> norm_num

lemma withBonusOf_length (rng : Nat → ℚ) (sinF : ℚ → ℚ) (input : DetectionResponse)
    (hr : RngOK rng) :
    (withBonusOf rng sinF input).length = pcOf input + bonusCountOf rng input := by
  unfold withBonusOf
  rw [bonusStep_length hr _ _ _ (by rw [stairsOf_length]; have := pcOf_ge input; omega)
    (by rw [stairsOf_length]
        have h1 := pcOf_le input
        have h2 := bonusCountOf_le rng input
        have h3 : MAX_PLATFORMS = 8 := rfl
        omega)]
  rw [stairsOf_length]

lemma withBonusOf_pos_y_inv (rng : Nat → ℚ) (sinF : ℚ → ℚ)
    (input : DetectionResponse) (hr : RngOK rng) :
    (∀ (j : Nat) (p : SPlat), (withBonusOf rng sinF input).get? j = some p → p.pos = j) ∧
      (∀ p ∈ withBonusOf rng sinF input,
        stairYval rng (vertStepOf input) (pcOf input - 1) ≤ p.bounds.y ∧
        p.bounds.y ≤ stairYval rng (vertStepOf input) 0 ∧
        (p.pos = pcOf input - 1 ∨
          stairYval rng (vertStepOf input) (pcOf input - 1) < p.bounds.y)) := by
  have h5 := pcOf_ge input
  have hvge := vertStepOf_ge input
  have hy1 := stair_ymin_ge rng input hr
  have hy2 := stair_ymax_le rng input hr
  exact bonusStep_y_inv hr _ _ (pcOf input - 1)
    (by nlinarith) (by nlinarith) (by omega)
    (bonusCountOf rng input) (2 + 3 * pcOf input) (stairsOf rng sinF input)
    (stairsOf_pos_inv rng sinF input)
    (by rw [stairsOf_length]; omega)
    (stairsOf_y_inv rng sinF input hr)

lemma withBonusOf_not_ground (rng : Nat → ℚ) (sinF : ℚ → ℚ)
    (input : DetectionResponse) (hr : RngOK rng) :
    ∀ p ∈ withBonusOf rng sinF input, p.isGround = false := by
  apply bonusStep_invariant (fun p => p.isGround = false) hr
  · intro above below x pos r _ _ _ _
    rfl
  · intro p hp
    obtain ⟨i, _, rfl⟩ := mem_stairsOf rng sinF input hp
    rfl

lemma realPlatsOf_eq (rng : Nat → ℚ) (sinF : ℚ → ℚ) (input : DetectionResponse)
    (hr : RngOK rng) :
    realPlatsOf rng sinF input = withBonusOf rng sinF input := by
  unfold realPlatsOf allPlatsOf
  rw [List.filter_append]
  have h1 : (withBonusOf rng sinF input).filter (fun p => !p.isGround) =
      withBonusOf rng sinF input := by
    apply List.filter_eq_self.mpr
    intro p hp
    rw [withBonusOf_not_ground rng sinF input hr p hp]
    rfl
  have h2 : ([groundPlat (withBonusOf rng sinF input).length].filter
      (fun p => !p.isGround)) = [] := rfl
  rw [h1, h2, List.append_nil]

-- ---------------------------------------------------------------------------
-- Sorting lemmas
-- ---------------------------------------------------------------------------

/-- The head of the y-sorted platform list is a member attaining the
minimum y. -/
lemma sortByY_head_min (l : List SPlat) (h : l ≠ []) :
    ∃ hp tail, sortByY l = hp :: tail ∧ hp ∈ l ∧
      ∀ q ∈ l, hp.bounds.y ≤ q.bounds.y := by
  have hperm : List.Perm (sortByY l) l := List.perm_insertionSort byY l
  rcases hs : sortByY l with _ | ⟨hp, tail⟩
  · exfalso
    rw [hs] at hperm
    exact h (hperm.nil_eq).symm
  · rw [hs] at hperm
    refine ⟨hp, tail, rfl, ?_, ?_⟩
    · exact hperm.mem_iff.mp (List.mem_cons_self hp tail)
    · intro q hq
      rcases List.mem_cons.mp (hperm.mem_iff.mpr hq) with hq2 | hq2
      · exact le_of_eq (by rw [hq2])
      · have hsorted : List.Sorted byY (sortByY l) := List.sorted_insertionSort byY l
        rw [hs, List.sorted_cons] at hsorted
        exact hsorted.1 q hq2

/-- When the real-platform list is nonempty, the exit sits on a platform
with minimal `y`, at the source's offsets. -/
lemma exitOf_spec (l : List SPlat) (h : l ≠ []) :
    ∃ hp ∈ l, (∀ q ∈ l, hp.bounds.y ≤ q.bounds.y) ∧
      exitOf l = { x := clampQ (hp.bounds.x + hp.bounds.w - 0.04) 0.6 0.95
                   y := hp.bounds.y - ENTITY_OFFSET_Y } := by
  obtain ⟨hp, tail, hs, hmem, hmin⟩ := sortByY_head_min l h
  refine ⟨hp, hmem, hmin, ?_⟩
  unfold exitOf
  rw [hs]

-- ---------------------------------------------------------------------------
-- The window argument: bounded sorted gaps
-- ---------------------------------------------------------------------------

lemma maxGapScan_le (G : ℚ) :
    ∀ (l : List ℚ) (m : ℚ), m ≤ G → List.Chain' (fun a b => b - a ≤ G) l →
      maxGapScan m l ≤ G := by
  intro l
  induction l with
  | nil => intro m hm _; exact hm
  | cons a t ih =>
    intro m hm hc
    cases t with
    | nil => exact hm
    | cons b rest =>
      rw [List.chain'_cons] at hc
      rw [maxGapScan]
      exact ih (max m (b - a)) (max_le hm hc.1) hc.2

lemma sorted_window_chain (G : ℚ) (hG : 0 ≤ G) :
    ∀ l : List ℚ, List.Sorted (· ≤ ·) l →
      (∀ u ∈ l, ∀ v ∈ l, u < v → ∃ q ∈ l, u < q ∧ q ≤ u + G) →
      List.Chain' (fun a b => b - a ≤ G) l := by
  intro l
  induction l with
  | nil => intro _ _; exact List.chain'_nil
  | cons a t ih =>
    intro hsorted hW
    cases t with
    | nil => exact List.chain'_singleton a
    | cons b rest =>
      rw [List.sorted_cons] at hsorted
      rw [List.chain'_cons]
      constructor
      · by_cases hab : a < b
        · obtain ⟨q, hq, haq, hqa⟩ := hW a (List.mem_cons_self _ _) b
            (List.mem_cons_of_mem _ (List.mem_cons_self _ _)) hab
          rcases List.mem_cons.mp hq with hq2 | hq
          · rw [hq2] at haq
            exact absurd haq (lt_irrefl a)
          · rcases List.mem_cons.mp hq with hq2 | hq
            · rw [hq2] at hqa
              linarith
            · have hbq : b ≤ q := by
                have hs2 := hsorted.2
                rw [List.sorted_cons] at hs2
                exact hs2.1 q hq
              linarith
        · have hba : b ≤ a := not_lt.mp hab
          linarith
      · apply ih hsorted.2
        intro u hu v hv huv
        obtain ⟨q, hq, huq, hqu⟩ := hW u (List.mem_cons_of_mem _ hu) v
          (List.mem_cons_of_mem _ hv) huv
        rcases List.mem_cons.mp hq with hq2 | hq
        · rw [hq2] at huq
          exact absurd huq (not_lt.mpr (hsorted.1 u hu))
        · exact ⟨q, hq, huq, hqu⟩

/-- Main gap bound: the analyzer's largest sorted gap of a list with the
window property is at most `G`. -/
lemma maxGap_le_of_WithinG (l : List ℚ) (G : ℚ) (hG : 0 ≤ G) (hW : WithinG l G) :
    maxGapScan 0 (sortYs l) ≤ G := by
  apply maxGapScan_le G _ 0 hG
  apply sorted_window_chain G hG
  · exact List.sorted_insertionSort _ l
  · intro u hu v hv huv
    have hperm : List.Perm (sortYs l) l := List.perm_insertionSort _ l
    obtain ⟨q, hq, h1, h2⟩ := hW u (hperm.mem_iff.mp hu)
      ⟨v, hperm.mem_iff.mp hv, huv⟩
    exact ⟨q, hperm.mem_iff.mpr hq, h1, h2⟩

-- ---------------------------------------------------------------------------
-- Anchor-marking lemmas
-- ---------------------------------------------------------------------------

lemma setAnchorAt_platYs : ∀ (objs : List SceneObject) (n : Nat),
    platYs (setAnchorAt objs n) = platYs objs := by
  intro objs
  induction objs with
  | nil => intro n; rfl
  | cons o rest ih =>
    intro n
    cases n with
    | zero =>
      rw [setAnchorAt]
      split
      next => rfl
      next => rfl
    | succ m =>
      show platYs (o :: setAnchorAt rest m) = _
      unfold platYs
      rw [List.filterMap_cons, List.filterMap_cons]
      have h := ih m
      unfold platYs at h
      rw [h]

lemma setAnchorAt_mem : ∀ (objs : List SceneObject) (n : Nat),
    ∀ o ∈ setAnchorAt objs n, ∃ o2 ∈ objs, o.type = o2.type ∧
      o.bounds_normalized = o2.bounds_normalized := by
  intro objs
  induction objs with
  | nil => intro n o ho; cases ho
  | cons a rest ih =>
    intro n o ho
    cases n with
    | zero =>
      rw [setAnchorAt] at ho
      rcases List.mem_cons.mp ho with h | h
      · refine ⟨a, List.mem_cons_self _ _, ?_⟩
        rw [h]
        split <;> exact ⟨rfl, rfl⟩
      · exact ⟨o, List.mem_cons_of_mem _ h, rfl, rfl⟩
    | succ m =>
      rw [setAnchorAt] at ho
      rcases List.mem_cons.mp ho with h | h
      · exact ⟨a, List.mem_cons_self _ _, by rw [h], by rw [h]⟩
      · obtain ⟨o2, ho2, ht, hb⟩ := ih m o h
        exact ⟨o2, List.mem_cons_of_mem _ ho2, ht, hb⟩

lemma setAnchorAt_length : ∀ (objs : List SceneObject) (n : Nat),
    (setAnchorAt objs n).length = objs.length := by
  intro objs
  induction objs with
  | nil => intro n; rfl
  | cons a rest ih =>
    intro n
    cases n with
    | zero =>
      rw [setAnchorAt]
      split <;> rfl
    | succ m =>
      show (a :: setAnchorAt rest m).length = _
      simp [ih m]

lemma setAnchorAt_get_ne : ∀ (objs : List SceneObject) (n m : Nat), m ≠ n →
    (setAnchorAt objs n).get? m = objs.get? m := by
  intro objs
  induction objs with
  | nil => intro n m _; rfl
  | cons a rest ih =>
    intro n m hne
    cases n with
    | zero =>
      cases m with
      | zero => omega
      | succ m2 =>
        rw [setAnchorAt]
        split <;> rfl
    | succ n2 =>
      cases m with
      | zero => rfl
      | succ m2 =>
        show (a :: setAnchorAt rest n2).get? (m2 + 1) = _
        simp only [List.get?_cons_succ]
        exact ih n2 m2 (by omega)

lemma setAnchorAt_get_self : ∀ (objs : List SceneObject) (n : Nat) (o : SceneObject),
    objs.get? n = some o → o.type = ObjType.platform →
    (setAnchorAt objs n).get? n = some { o with enemy_spawn_anchor := some true } := by
  intro objs
  induction objs with
  | nil => intro n o h _; cases h
  | cons a rest ih =>
    intro n o h ht
    cases n with
    | zero =>
      simp only [List.get?_cons_zero] at h
      cases h
      rw [setAnchorAt, if_pos ht]
      rfl
    | succ m =>
      simp only [List.get?_cons_succ] at h
      show (a :: setAnchorAt rest m).get? (m + 1) = _
      simp only [List.get?_cons_succ]
      exact ih m o h ht

-- ---------------------------------------------------------------------------
-- The staircase ladder
-- ---------------------------------------------------------------------------

lemma ladder_aux (y : Nat → ℚ) (G : ℚ) (pc : Nat)
    (hadj : ∀ i, i + 1 < pc → y i - y (i + 1) ≤ G)
    (p : ℚ) (hlast : y (pc - 1) ≤ p) :
    ∀ d k, pc - k = d → k < pc → p < y k →
      ∃ i, i < pc ∧ p < y i ∧ y i ≤ p + G := by
  intro d
  induction d with
  | zero => intro k hk hkpc _; omega
  | succ d ih =>
    intro k hk hkpc hpk
    by_cases hk1 : k + 1 < pc
    · by_cases hp1 : p < y (k + 1)
      · exact ih (k + 1) (by omega) hk1 hp1
      · refine ⟨k, hkpc, hpk, ?_⟩
        have h1 := hadj k hk1
        have h2 : y (k + 1) ≤ p := not_lt.mp hp1
        linarith
    · exfalso
      have hke : k = pc - 1 := by omega
      rw [hke] at hpk
      linarith

/-- Any value bracketed by the staircase extremes has a staircase value
within `1.4 * vertStep` strictly above it. -/
lemma ladder (rng : Nat → ℚ) (hr : RngOK rng) (vs : ℚ) (hvsp : 0 < vs)
    (pc : Nat) (hpc : 1 ≤ pc) (p : ℚ)
    (hmin : stairYval rng vs (pc - 1) ≤ p) (hmax : p < stairYval rng vs 0) :
    ∃ i, i < pc ∧ p < stairYval rng vs i ∧ stairYval rng vs i ≤ p + 1.4 * vs := by
  exact ladder_aux (stairYval rng vs) (1.4 * vs) pc
    (fun i _ => stairYval_gap_le rng hr vs hvsp i) p hmin pc 0 (by omega) (by omega) hmax

-- ---------------------------------------------------------------------------
-- Objects-list characterization
-- ---------------------------------------------------------------------------

lemma range_map_getD {α β : Type} (l : List α) (d : α) (f : α → β) :
    (List.range l.length).map (fun i => f (l.getD i d)) = l.map f := by
  induction l with
  | nil => rfl
  | cons a t ih =>
    rw [List.length_cons, List.range_succ_eq_map, List.map_cons, List.map_map, List.map_cons]
    congr 1

lemma platYs_all_platform (objs : List SceneObject)
    (h : ∀ o ∈ objs, o.type = ObjType.platform) :
    platYs objs = objs.map (fun o => o.bounds_normalized.y) := by
  induction objs with
  | nil => rfl
  | cons a t ih =>
    have ha := h a (List.mem_cons_self _ _)
    unfold platYs
    rw [List.filterMap_cons, if_pos ha, List.map_cons]
    show a.bounds_normalized.y :: List.filterMap
        (fun o => if o.type = ObjType.platform then some o.bounds_normalized.y else none) t = _
    congr 1
    exact ih (fun o ho => h o (List.mem_cons_of_mem _ ho))

lemma platObjsOf_types (rng : Nat → ℚ) (sinF : ℚ → ℚ) (input : DetectionResponse) :
    ∀ o ∈ platObjsOf rng sinF input, o.type = ObjType.platform := by
  intro o ho
  unfold platObjsOf at ho
  obtain ⟨i, _, rfl⟩ := List.mem_map.mp ho
  rfl

lemma platObjsOf_platYs (rng : Nat → ℚ) (sinF : ℚ → ℚ) (input : DetectionResponse) :
    platYs (platObjsOf rng sinF input) =
      (allPlatsOf rng sinF input).map (fun p => p.bounds.y) := by
  rw [platYs_all_platform _ (platObjsOf_types rng sinF input)]
  unfold platObjsOf
  rw [List.map_map]
  exact range_map_getD (allPlatsOf rng sinF input) dummyPlat (fun p => p.bounds.y)

lemma collectibleObjs_types (idBase : Nat) (foods : List Detection)
    (rp : List SPlat) :
    ∀ o ∈ collectibleObjs idBase foods rp, o.type = ObjType.collectible := by
  intro o ho
  unfold collectibleObjs at ho
  obtain ⟨i, _, hfe⟩ := List.mem_map.mp ho
  cases hfe
  rfl

lemma collectibleObjs_platYs (idBase : Nat) (foods : List Detection)
    (rp : List SPlat) : platYs (collectibleObjs idBase foods rp) = [] := by
  unfold platYs
  rw [List.filterMap_eq_nil]
  intro o ho
  rw [if_neg]
  rw [collectibleObjs_types idBase foods rp o ho]
  intro hcontra
  cases hcontra

lemma collectibleObjs_length (idBase : Nat) (foods : List Detection)
    (rp : List SPlat) :
    (collectibleObjs idBase foods rp).length = min foods.length 5 := by
  unfold collectibleObjs
  rw [List.length_map, List.length_range, List.length_take]
  omega

lemma platYs_append (l1 l2 : List SceneObject) :
    platYs (l1 ++ l2) = platYs l1 ++ platYs l2 := by
  unfold platYs
  exact List.filterMap_append l1 l2 _

lemma enemiesFold_platYs (rp : List SPlat) :
    ∀ (idxs : List Nat) (objs : List SceneObject),
      platYs (enemiesFold rp objs idxs).1 = platYs objs := by
  intro idxs
  induction idxs with
  | nil => intro objs; rfl
  | cons idx rest ih =>
    intro objs
    rw [enemiesFold]
    rcases h : rp.get? idx with _ | plat
    · exact ih objs
    · show platYs (enemiesFold rp (setAnchorAt objs plat.pos) rest).1 = _
      rw [ih (setAnchorAt objs plat.pos), setAnchorAt_platYs]

lemma enemiesFold_mem (rp : List SPlat) :
    ∀ (idxs : List Nat) (objs : List SceneObject),
      ∀ o ∈ (enemiesFold rp objs idxs).1, ∃ o2 ∈ objs, o.type = o2.type ∧
        o.bounds_normalized = o2.bounds_normalized := by
  intro idxs
  induction idxs with
  | nil => intro objs o ho; exact ⟨o, ho, rfl, rfl⟩
  | cons idx rest ih =>
    intro objs o ho
    rw [enemiesFold] at ho
    rcases h : rp.get? idx with _ | plat
    · rw [h] at ho
      exact ih objs o ho
    · rw [h] at ho
      obtain ⟨o2, ho2, ht, hb⟩ := ih (setAnchorAt objs plat.pos) o ho
      obtain ⟨o3, ho3, ht2, hb2⟩ := setAnchorAt_mem objs plat.pos o2 ho2
      exact ⟨o3, ho3, ht.trans ht2, hb.trans hb2⟩

lemma enemiesFold_typeMap (rp : List SPlat) :
    ∀ (idxs : List Nat) (objs : List SceneObject),
      (enemiesFold rp objs idxs).1.map (fun o => o.type) =
        objs.map (fun o => o.type) := by
  intro idxs
  induction idxs with
  | nil => intro objs; rfl
  | cons idx rest ih =>
    intro objs
    rw [enemiesFold]
    rcases h : rp.get? idx with _ | plat
    · exact ih objs
    · show (enemiesFold rp (setAnchorAt objs plat.pos) rest).1.map _ = _
      rw [ih (setAnchorAt objs plat.pos)]
      have : ∀ (os : List SceneObject) (n : Nat),
          (setAnchorAt os n).map (fun o => o.type) = os.map (fun o => o.type) := by
        intro os
        induction os with
        | nil => intro n; rfl
        | cons a t ih2 =>
          intro n
          cases n with
          | zero =>
            rw [setAnchorAt]
            split
            next => rfl
            next => rfl
          | succ m =>
            show (a :: setAnchorAt t m).map _ = _
            rw [List.map_cons, List.map_cons, ih2 m]
      exact this objs plat.pos

-- ---------------------------------------------------------------------------
-- Assembled-scene lemmas
-- ---------------------------------------------------------------------------

lemma buildLevelWith_objects (rng : Nat → ℚ) (sinF : ℚ → ℚ) (input : DetectionResponse) :
    (buildLevelWith rng sinF input).objects =
      (enemiesFold (realPlatsOf rng sinF input) (objsEFOf rng sinF input)
        (enemyIdxsOf rng sinF input)).1 := rfl

lemma buildLevelWith_enemies (rng : Nat → ℚ) (sinF : ℚ → ℚ) (input : DetectionResponse) :
    (buildLevelWith rng sinF input).spawns.enemies =
      (enemiesFold (realPlatsOf rng sinF input) (objsEFOf rng sinF input)
        (enemyIdxsOf rng sinF input)).2 := rfl

lemma buildLevelWith_player (rng : Nat → ℚ) (sinF : ℚ → ℚ) (input : DetectionResponse) :
    (buildLevelWith rng sinF input).spawns.player =
      { x := 0.08, y := GROUND_Y - ENTITY_OFFSET_Y } := rfl

lemma buildLevelWith_exit (rng : Nat → ℚ) (sinF : ℚ → ℚ) (input : DetectionResponse) :
    (buildLevelWith rng sinF input).spawns.exit =
      exitOf (realPlatsOf rng sinF input) := rfl

lemma buildLevelWith_pickups (rng : Nat → ℚ) (sinF : ℚ → ℚ) (input : DetectionResponse) :
    (buildLevelWith rng sinF input).spawns.pickups =
      padPickups (pickupsOf (realPlatsOf rng sinF input)) := rfl

/-- The platform-y multiset of the built scene: the bonus-extended
staircase ys followed by the ground's `GROUND_Y`. -/
lemma scene_platYs (rng : Nat → ℚ) (sinF : ℚ → ℚ) (input : DetectionResponse) :
    platYs (buildLevelWith rng sinF input).objects =
      (withBonusOf rng sinF input).map (fun p => p.bounds.y) ++ [GROUND_Y] := by
  rw [buildLevelWith_objects, enemiesFold_platYs]
  unfold objsEFOf
  rw [platYs_append, platObjsOf_platYs, collectibleObjs_platYs, List.append_nil]
  unfold allPlatsOf
  rw [List.map_append]
  rfl

/-- Prefix access: real platform `i < platCount` is staircase platform
`i`. -/
lemma realPlats_get_stair (rng : Nat → ℚ) (sinF : ℚ → ℚ) (input : DetectionResponse)
    (hr : RngOK rng) {i : Nat} (hi : i < pcOf input) :
    (realPlatsOf rng sinF input).get? i = (stairsOf rng sinF input).get? i := by
  rw [realPlatsOf_eq rng sinF input hr]
  unfold withBonusOf
  exact bonusStep_get_front rng _ _ _ (by rw [stairsOf_length]; omega)

lemma realPlats_length (rng : Nat → ℚ) (sinF : ℚ → ℚ) (input : DetectionResponse)
    (hr : RngOK rng) :
    (realPlatsOf rng sinF input).length = pcOf input + bonusCountOf rng input := by
  rw [realPlatsOf_eq rng sinF input hr]
  exact withBonusOf_length rng sinF input hr

lemma realPlats_length_ge (rng : Nat → ℚ) (sinF : ℚ → ℚ) (input : DetectionResponse)
    (hr : RngOK rng) : 6 ≤ (realPlatsOf rng sinF input).length := by
  rw [realPlats_length rng sinF input hr]
  have h1 := pcOf_ge input
  have h2 := bonusCountOf_ge rng input
  omega

lemma realPlats_length_le (rng : Nat → ℚ) (sinF : ℚ → ℚ) (input : DetectionResponse)
    (hr : RngOK rng) : (realPlatsOf rng sinF input).length ≤ 10 := by
  rw [realPlats_length rng sinF input hr]
  have h1 := pcOf_le input
  have h2 := bonusCountOf_le rng input
  omega

/-- The exit sits exactly on staircase platform `platCount - 1`, the
unique minimum-y real platform. -/
lemma exit_on_last_stair (rng : Nat → ℚ) (sinF : ℚ → ℚ) (input : DetectionResponse)
    (hr : RngOK rng) :
    ∃ hp, (stairsOf rng sinF input).get? (pcOf input - 1) = some hp ∧
      hp.bounds.y = stairYval rng (vertStepOf input) (pcOf input - 1) ∧
      (∀ q ∈ realPlatsOf rng sinF input, hp.bounds.y ≤ q.bounds.y) ∧
      (buildLevelWith rng sinF input).spawns.exit =
        { x := clampQ (hp.bounds.x + hp.bounds.w - 0.04) 0.6 0.95
          y := hp.bounds.y - ENTITY_OFFSET_Y } := by
  have h5 := pcOf_ge input
  have hlast : pcOf input - 1 < pcOf input := by omega
  have hne : realPlatsOf rng sinF input ≠ [] := by
    have := realPlats_length_ge rng sinF input hr
    intro hnil
    rw [hnil] at this
    simp at this
  obtain ⟨hp, hpmem, hpmin, hexit⟩ := exitOf_spec _ hne
  obtain ⟨hposInv, hyInv⟩ := withBonusOf_pos_y_inv rng sinF input hr
  have hpmem2 : hp ∈ withBonusOf rng sinF input := by
    rwa [realPlatsOf_eq rng sinF input hr] at hpmem
  -- the stair at platCount - 1
  rcases hsl : (stairsOf rng sinF input).get? (pcOf input - 1) with _ | slast
  · exfalso
    rw [List.get?_eq_none, stairsOf_length] at hsl
    omega
  have hslw : (withBonusOf rng sinF input).get? (pcOf input - 1) = some slast := by
    unfold withBonusOf
    rw [bonusStep_get_front rng _ _ _ (by rw [stairsOf_length]; omega)]
    exact hsl
  have hslmem : slast ∈ withBonusOf rng sinF input := List.get?_mem hslw
  have hslmem2 : slast ∈ realPlatsOf rng sinF input := by
    rwa [realPlatsOf_eq rng sinF input hr]
  have hsly : slast.bounds.y = stairYval rng (vertStepOf input) (pcOf input - 1) :=
    stairsOf_y rng sinF input hr hsl
  -- hp attains the minimum, slast has value ymin, and hp is at least ymin
  have h1 : hp.bounds.y ≤ slast.bounds.y := hpmin slast hslmem2
  have h2 := hyInv hp hpmem2
  have heq : hp.bounds.y = stairYval rng (vertStepOf input) (pcOf input - 1) := by
    rw [hsly] at h1
    exact le_antisymm h1 h2.1
  -- hence hp.pos = platCount - 1, hence hp = slast
  have hpos : hp.pos = pcOf input - 1 := by
    rcases h2.2.2 with h | h
    · exact h
    · rw [heq] at h
      exact absurd h (lt_irrefl _)
  obtain ⟨j, hj⟩ := List.get?_of_mem hpmem2
  have hjpos : hp.pos = j := hposInv j hp hj
  have hjeq : j = pcOf input - 1 := by omega
  rw [hjeq] at hj
  have hhp : hp = slast := by
    rw [hj] at hslw
    exact Option.some.inj hslw
  refine ⟨slast, rfl, hsly, ?_, ?_⟩
  · intro q hq
    rw [← hhp]
    exact hpmin q hq
  · rw [buildLevelWith_exit, hexit, hhp]

/-- Numeric lower bound of the top staircase platform's y. -/
lemma stairYval_zero_ge (rng : Nat → ℚ) (hr : RngOK rng) (vs : ℚ) (hvsp : 0 < vs) :
    0.92 - 1.2 * vs ≤ stairYval rng vs 0 := by
  obtain ⟨h0, h1⟩ := hr 2
  unfold stairYval
  rw [GROUND_Y]
  push_cast
  nlinarith

/-- Staircase y values occur among the real-platform ys. -/
lemma stair_y_mem (rng : Nat → ℚ) (sinF : ℚ → ℚ) (input : DetectionResponse)
    (hr : RngOK rng) {i : Nat} (hi : i < pcOf input) :
    stairYval rng (vertStepOf input) i ∈
      (withBonusOf rng sinF input).map (fun p => p.bounds.y) := by
  rcases hsi : (stairsOf rng sinF input).get? i with _ | p
  · exfalso
    rw [List.get?_eq_none, stairsOf_length] at hsi
    omega
  · have hw : (withBonusOf rng sinF input).get? i = some p := by
      unfold withBonusOf
      rw [bonusStep_get_front rng _ _ _ (by rw [stairsOf_length]; omega)]
      exact hsi
    exact List.mem_map.mpr ⟨p, List.get?_mem hw, stairsOf_y rng sinF input hr hsi⟩

/-- The window property of the gap-analyzer's y list on any built scene:
wherever some landing position lies strictly above a value of the list,
one lies within `MAX_JUMP_HEIGHT` above it. -/
lemma scene_WithinG (rng : Nat → ℚ) (sinF : ℚ → ℚ) (input : DetectionResponse)
    (hr : RngOK rng) :
    WithinG (yPositionsOf (buildLevelWith rng sinF input)) MAX_JUMP_HEIGHT := by
  have h5 := pcOf_ge input
  have hvsp := vertStepOf_pos input
  have hvsge := vertStepOf_ge input
  have hvsle := vertStepOf_le input
  obtain ⟨hposInv, hyInv⟩ := withBonusOf_pos_y_inv rng sinF input hr
  obtain ⟨slast, hsl, hsly, hslmin, hexit⟩ := exit_on_last_stair rng sinF input hr
  have hymax := stair_ymax_le rng input hr
  have hymin := stair_ymin_ge rng input hr
  have hymax0 := stairYval_zero_ge rng hr (vertStepOf input) hvsp
  have hexity : (buildLevelWith rng sinF input).spawns.exit.y =
      stairYval rng (vertStepOf input) (pcOf input - 1) - ENTITY_OFFSET_Y := by
    rw [hexit, ← hsly]
  have hslmem : slast ∈ withBonusOf rng sinF input := by
    apply List.get?_mem (n := pcOf input - 1)
    unfold withBonusOf
    rw [bonusStep_get_front rng _ _ _ (by rw [stairsOf_length]; omega)]
    exact hsl
  have hyminmem : stairYval rng (vertStepOf input) (pcOf input - 1) ∈
      (withBonusOf rng sinF input).map (fun p => p.bounds.y) :=
    List.mem_map.mpr ⟨slast, hslmem, hsly⟩
  have hmem : ∀ q, q ∈ yPositionsOf (buildLevelWith rng sinF input) ↔
      (q = 1 ∨ q ∈ (withBonusOf rng sinF input).map (fun p => p.bounds.y) ∨
        q = GROUND_Y ∨
        q = stairYval rng (vertStepOf input) (pcOf input - 1) - ENTITY_OFFSET_Y) := by
    intro q
    unfold yPositionsOf
    rw [scene_platYs, hexity]
    simp only [List.mem_cons, List.mem_append, List.mem_singleton]
    tauto
  -- upper bound of every member
  have hub : ∀ q ∈ yPositionsOf (buildLevelWith rng sinF input), q ≤ 1 := by
    intro q hq
    rcases (hmem q).mp hq with h | h | h | h
    · exact le_of_eq h
    · obtain ⟨p, hp, hpy⟩ := List.mem_map.mp h
      have h2 := (hyInv p hp).2.1
      rw [← hpy]
      linarith
    · rw [h, GROUND_Y]
      norm_num
    · rw [h, ENTITY_OFFSET_Y]
      have h2 := (hyInv slast hslmem).2.1
      rw [hsly] at h2
      linarith
  intro p hp hex
  rcases (hmem p).mp hp with h | h | h | h
  · exfalso
    obtain ⟨q, hq, h1q⟩ := hex
    have := hub q hq
    rw [h] at h1q
    linarith
  · -- p is a real platform y
    obtain ⟨pl, hpl, hply⟩ := List.mem_map.mp h
    have hbd := hyInv pl hpl
    by_cases hmax : pl.bounds.y < stairYval rng (vertStepOf input) 0
    · obtain ⟨i, hi, hlt, hle⟩ := ladder rng hr (vertStepOf input) hvsp (pcOf input)
        (by omega) pl.bounds.y hbd.1 hmax
      refine ⟨stairYval rng (vertStepOf input) i, ?_, ?_, ?_⟩
      · exact (hmem _).mpr (Or.inr (Or.inl (stair_y_mem rng sinF input hr hi)))
      · rw [← hply]
        exact hlt
      · rw [← hply, MAX_JUMP_HEIGHT]
        have : (1.4 : ℚ) * vertStepOf input ≤ 1.4 * (37 / 300) := by linarith
        linarith
    · refine ⟨GROUND_Y, (hmem _).mpr (Or.inr (Or.inr (Or.inl rfl))), ?_, ?_⟩
      · rw [← hply, GROUND_Y]
        have h2 := hbd.2.1
        nlinarith
      · rw [← hply, GROUND_Y, MAX_JUMP_HEIGHT]
        have h3 : stairYval rng (vertStepOf input) 0 ≤ pl.bounds.y := not_lt.mp hmax
        nlinarith
  · -- p is the ground
    refine ⟨1, (hmem _).mpr (Or.inl rfl), ?_, ?_⟩
    · rw [h, GROUND_Y]
      norm_num
    · rw [h, GROUND_Y, MAX_JUMP_HEIGHT]
      norm_num
  · -- p is the exit y
    refine ⟨stairYval rng (vertStepOf input) (pcOf input - 1),
      (hmem _).mpr (Or.inr (Or.inl hyminmem)), ?_, ?_⟩
    · rw [h, ENTITY_OFFSET_Y]
      linarith
    · rw [h, ENTITY_OFFSET_Y, MAX_JUMP_HEIGHT]
      linarith

/-- The analyzer's clamp keeps the jump fraction inside
`[minJumpFraction, maxJumpFraction]` on any scene. -/
lemma analyzeSceneGaps_mem (scene : SceneV1) :
    0.15 ≤ analyzeSceneGaps scene ∧ analyzeSceneGaps scene ≤ 0.45 := by
  unfold analyzeSceneGaps
  constructor
  · apply le_min
    · exact le_max_right _ _
    · norm_num [ratios]
  · exact min_le_right _ _

-- ---------------------------------------------------------------------------
-- Per-platform bounds package (for the bounds invariant)
-- ---------------------------------------------------------------------------

lemma withBonus_bounds (rng : Nat → ℚ) (sinF : ℚ → ℚ) (input : DetectionResponse)
    (hr : RngOK rng) :
    ∀ p ∈ withBonusOf rng sinF input,
      MIN_PLAT_W ≤ p.bounds.w ∧ p.bounds.w ≤ MAX_PLAT_W ∧
      X_MIN ≤ p.bounds.x ∧ p.bounds.x ≤ X_MAX - p.bounds.w ∧
      0.08 ≤ p.bounds.y ∧ p.bounds.y ≤ 0.88 ∧ p.bounds.h = PLATFORM_THICKNESS := by
  intro p0 hp0
  unfold withBonusOf at hp0
  refine bonusStep_invariant
    (fun p => MIN_PLAT_W ≤ p.bounds.w ∧ p.bounds.w ≤ MAX_PLAT_W ∧
      X_MIN ≤ p.bounds.x ∧ p.bounds.x ≤ X_MAX - p.bounds.w ∧
      0.08 ≤ p.bounds.y ∧ p.bounds.y ≤ 0.88 ∧ p.bounds.h = PLATFORM_THICKNESS)
    hr ?_ _ _ _ ?_ p0 hp0
  · intro above below x pos r hr0 hr1 _ _
    unfold bonusPlat
    refine ⟨?_, ?_, le_clampQ _ _ _, clampQ_le _ _ _ ?_, le_clampQ _ _ _,
      clampQ_le _ _ _ ?_, rfl⟩
    · rw [MIN_PLAT_W]
      nlinarith
    · rw [MIN_PLAT_W, MAX_PLAT_W]
      nlinarith
    · rw [MIN_PLAT_W, X_MIN, X_MAX]
      nlinarith
    · norm_num
  · intro p hp
    obtain ⟨i, hi, rfl⟩ := mem_stairsOf rng sinF input hp
    have hw := jitterWidthV_mem
      ((padInfos (platformInfosOf input) (pcOf input)).getD i ledgeInfo).width
      (rng (1 + 3 * i))
    have hw94 : jitterWidthV
        ((padInfos (platformInfosOf input) (pcOf input)).getD i ledgeInfo).width
        (rng (1 + 3 * i)) ≤ 0.94 := by
      have := hw.2
      rw [MAX_PLAT_W] at this
      linarith
    have hx := stairXV_mem (stratOf rng) sinF (pcOf input) i _ (rng (3 + 3 * i)) hw94
    have hy := jitterYV_mem (GROUND_Y - ((i : ℚ) + 1) * vertStepOf input)
      (vertStepOf input) (rng (2 + 3 * i))
    refine ⟨hw.1, hw.2, hx.1, hx.2, ?_, ?_, rfl⟩
    · rw [mkStair_y]
      have h := hy.1
      rw [EXIT_Y] at h
      linarith
    · rw [mkStair_y]
      have h := hy.2
      have hg : GROUND_Y - (0.04 : ℚ) = 0.88 := by
        rw [GROUND_Y]
        norm_num
      linarith

-- ---------------------------------------------------------------------------
-- Type-census lemmas (object counts)
-- ---------------------------------------------------------------------------

lemma countType_map (objs : List SceneObject) (c : ObjType) :
    (objs.filter (fun o => o.type = c)).length =
      ((objs.map (fun o => o.type)).filter (fun t => t = c)).length := by
  induction objs with
  | nil => rfl
  | cons a t ih =>
    rw [List.map_cons, List.filter_cons, List.filter_cons]
    by_cases h : a.type = c
    · rw [if_pos (by simpa using h), if_pos (by simpa using h)]
      simp only [List.length_cons, ih]
    · rw [if_neg (by simpa using h), if_neg (by simpa using h)]
      exact ih

lemma platObjsOf_typeList (rng : Nat → ℚ) (sinF : ℚ → ℚ) (input : DetectionResponse) :
    (platObjsOf rng sinF input).map (fun o => o.type) =
      List.replicate (allPlatsOf rng sinF input).length ObjType.platform := by
  unfold platObjsOf
  rw [List.map_map, List.eq_replicate]
  constructor
  · simp
  · intro t ht
    obtain ⟨i, _, rfl⟩ := List.mem_map.mp ht
    rfl

lemma collectibleObjs_typeList (idBase : Nat) (foods : List Detection) (rp : List SPlat) :
    (collectibleObjs idBase foods rp).map (fun o => o.type) =
      List.replicate (collectibleObjs idBase foods rp).length ObjType.collectible := by
  rw [List.eq_replicate]
  constructor
  · simp
  · intro t ht
    obtain ⟨o, ho, rfl⟩ := List.mem_map.mp ht
    exact collectibleObjs_types idBase foods rp o ho

lemma replicate_filter_eq {α : Type} [DecidableEq α] (n : Nat) (a c : α) :
    ((List.replicate n a).filter (fun t => t = c)).length = if a = c then n else 0 := by
  induction n with
  | zero => simp
  | succ m ih =>
    rw [List.replicate_succ, List.filter_cons]
    by_cases h : a = c
    · rw [if_pos (by simpa using h), if_pos h]
      simp only [List.length_cons, ih, if_pos h]
    · rw [if_neg (by simpa using h), if_neg h]
      rw [ih, if_neg h]

/-- The platform-object count of a built scene is exactly the platform
list length (staircase + bonus + ground). -/
lemma countPlats_scene (rng : Nat → ℚ) (sinF : ℚ → ℚ) (input : DetectionResponse) :
    countPlatformObjs (buildLevelWith rng sinF input) =
      (allPlatsOf rng sinF input).length := by
  unfold countPlatformObjs
  rw [countType_map, buildLevelWith_objects, enemiesFold_typeMap]
  unfold objsEFOf
  rw [List.map_append, List.filter_append, List.length_append,
    platObjsOf_typeList, collectibleObjs_typeList,
    replicate_filter_eq, replicate_filter_eq]
  simp

/-- The collectible-object count of a built scene is the number of food
detections consumed, at most five. -/
lemma countColls_scene (rng : Nat → ℚ) (sinF : ℚ → ℚ) (input : DetectionResponse) :
    countCollectibleObjs (buildLevelWith rng sinF input) =
      min (collectibleDetsOf input).length 5 := by
  unfold countCollectibleObjs
  rw [countType_map, buildLevelWith_objects, enemiesFold_typeMap]
  unfold objsEFOf
  rw [List.map_append, List.filter_append, List.length_append,
    platObjsOf_typeList, collectibleObjs_typeList,
    replicate_filter_eq, replicate_filter_eq]
  rw [collectibleObjs_length]
  simp

-- ---------------------------------------------------------------------------
-- Pickup lemmas
-- ---------------------------------------------------------------------------

lemma pickupsOf_length (rp : List SPlat) (h : 6 ≤ rp.length) :
    (pickupsOf rp).length = 6 := by
  unfold pickupsOf
  rw [List.length_map, List.length_range, List.length_take]
  omega

lemma padPickups_id (ps : List PickupSpawn) (h : 3 ≤ ps.length) :
    padPickups ps = ps := by
  unfold padPickups
  rw [if_neg (by omega)]

lemma pickupsOf_types (rp : List SPlat) (h : 6 ≤ rp.length) :
    (pickupsOf rp).map (fun pk => pk.type) =
      ["health", "coin", "coin", "coin", "coin", "coin"] := by
  unfold pickupsOf
  rw [List.map_map]
  have hlen : (rp.take 6).length = 6 := by
    rw [List.length_take]
    omega
  rw [hlen]
  rfl

lemma pickupsOf_mem (rp : List SPlat) :
    ∀ pk ∈ pickupsOf rp, ∃ p ∈ rp,
      pk.x = clampQ (p.bounds.x + p.bounds.w / 2) 0.05 0.95 ∧
      pk.y = p.bounds.y - ENTITY_OFFSET_Y := by
  intro pk hpk
  unfold pickupsOf at hpk
  obtain ⟨i, hi, rfl⟩ := List.mem_map.mp hpk
  rw [List.mem_range] at hi
  refine ⟨(rp.take 6).getD i dummyPlat, ?_, rfl, rfl⟩
  apply List.take_subset 6
  rw [List.getD_eq_getElem (rp.take 6) dummyPlat hi]
  exact List.getElem_mem _

-- ---------------------------------------------------------------------------
-- Enemy lemmas
-- ---------------------------------------------------------------------------

lemma enemiesFold_pair (rp : List SPlat) (objs : List SceneObject)
    (m1 m2 : Nat) (p1 p2 : SPlat)
    (h1 : rp.get? m1 = some p1) (h2 : rp.get? m2 = some p2) :
    enemiesFold rp objs [m1, m2] =
      (setAnchorAt (setAnchorAt objs p1.pos) p2.pos,
       [{ x := clampQ (p1.bounds.x + p1.bounds.w / 2) 0.05 0.95
          y := p1.bounds.y - ENTITY_OFFSET_Y, type := "walker" },
        { x := clampQ (p2.bounds.x + p2.bounds.w / 2) 0.05 0.95
          y := p2.bounds.y - ENTITY_OFFSET_Y, type := "walker" }]) := by
  rw [enemiesFold, h1]
  dsimp only
  rw [enemiesFold, h2]
  dsimp only
  rw [enemiesFold]

/-- Platform objects by position: the object at list position `j` is the
platform emitted from staircase entry `j`. -/
lemma objsEF_get (rng : Nat → ℚ) (sinF : ℚ → ℚ) (input : DetectionResponse)
    {j : Nat} (hj : j < (allPlatsOf rng sinF input).length) :
    (objsEFOf rng sinF input).get? j =
      some (emitPlatform j ((allPlatsOf rng sinF input).getD j dummyPlat)) := by
  unfold objsEFOf
  have hlen : j < (platObjsOf rng sinF input).length := by
    unfold platObjsOf
    rw [List.length_map, List.length_range]
    exact hj
  rw [List.get?_append hlen]
  unfold platObjsOf
  rw [List.get?_eq_getElem?, List.getElem?_map, List.getElem?_range hj]
  rfl

lemma objsEF_length (rng : Nat → ℚ) (sinF : ℚ → ℚ) (input : DetectionResponse) :
    (allPlatsOf rng sinF input).length ≤ (objsEFOf rng sinF input).length := by
  unfold objsEFOf platObjsOf
  rw [List.length_append, List.length_map, List.length_range]
  omega

-- ---------------------------------------------------------------------------
-- Classification characterization (step A as filter/map)
-- ---------------------------------------------------------------------------

lemma classify_foldl (dets : List Detection) :
    ∀ acc : List DetectionInfo × List Detection,
      dets.foldl
        (fun acc det =>
          if det.category = Category.food then (acc.1, acc.2 ++ [det])
          else (acc.1 ++ [detToInfo det], acc.2)) acc =
      (acc.1 ++ (dets.filter (fun d => !decide (d.category = Category.food))).map detToInfo,
       acc.2 ++ dets.filter (fun d => decide (d.category = Category.food))) := by
  induction dets with
  | nil => intro acc; simp
  | cons d rest ih =>
    intro acc
    rw [List.foldl_cons, List.filter_cons, List.filter_cons]
    by_cases h : d.category = Category.food
    · rw [if_pos h, ih]
      simp [h]
    · rw [if_neg h, ih]
      simp [h]

lemma classify_fst (dets : List Detection) :
    (classify dets).1 =
      (dets.filter (fun d => !decide (d.category = Category.food))).map detToInfo := by
  unfold classify
  rw [classify_foldl dets ([], [])]
  simp

lemma classify_snd (dets : List Detection) :
    (classify dets).2 = dets.filter (fun d => decide (d.category = Category.food)) := by
  unfold classify
  rw [classify_foldl dets ([], [])]
  simp

-- ---------------------------------------------------------------------------
-- Claim theorems
-- ---------------------------------------------------------------------------

/-- C7: `computePhysics(1000, 1000)` with no scene data uses the fallback
jump fraction `0.35` and returns `gravityY = 1200` and
`jumpVelocity = -sqrt(2 * 1200 * 350)`: a negative number whose square is
`840000`. -/
theorem c7_fallback_physics :
    jumpFractionOf none = 0.35 ∧
    (computePhysics 1000 1000 none).gravityY = 1200 ∧
    (computePhysics 1000 1000 none).jumpVelocity < 0 ∧
    (computePhysics 1000 1000 none).jumpVelocity ^ 2 = 840000 := by
  have hg : (computePhysics 1000 1000 none).gravityY = 1.2 * 1000 := rfl
  have hv : (computePhysics 1000 1000 none).jumpVelocity =
      -Real.sqrt (2 * ((1.2 * 1000 : ℚ) : ℝ) * ((0.35 * 1000 : ℚ) : ℝ)) := rfl
  have harg : (2 : ℝ) * ((1.2 * 1000 : ℚ) : ℝ) * ((0.35 * 1000 : ℚ) : ℝ) = 840000 := by
    push_cast
    norm_num
  rw [harg] at hv
  refine ⟨rfl, ?_, ?_, ?_⟩
  · rw [hg]
    norm_num
  · rw [hv]
    have h : (0 : ℝ) < Real.sqrt 840000 := Real.sqrt_pos.mpr (by norm_num)
    linarith
  · rw [hv, neg_pow]
    rw [Real.sq_sqrt (by norm_num : (840000 : ℝ) ≥ 0)]
    norm_num

/-- C10: for positive world dimensions and any scene (platforms or none),
`computePhysics` is total by construction; the analyzer's landing list
always contains the ground `1.0` and the exit y, the adaptive jump
fraction stays in `[0.15, 0.45]`, and the jump velocity is strictly
negative. -/
theorem c10_physics_total (worldW worldH : ℚ) (scene : SceneV1)
    (hw : 0 < worldW) (hh : 0 < worldH) :
    (1 : ℚ) ∈ yPositionsOf scene ∧
    scene.spawns.exit.y ∈ yPositionsOf scene ∧
    0.15 ≤ analyzeSceneGaps scene ∧ analyzeSceneGaps scene ≤ 0.45 ∧
    (computePhysics worldW worldH (some scene)).jumpVelocity < 0 := by
  obtain ⟨hf1, hf2⟩ := analyzeSceneGaps_mem scene
  refine ⟨List.mem_cons_self _ _, ?_, hf1, hf2, ?_⟩
  · unfold yPositionsOf
    apply List.mem_cons_of_mem
    apply List.mem_append_right
    exact List.mem_singleton_self _
  · have hv : (computePhysics worldW worldH (some scene)).jumpVelocity =
        -Real.sqrt (2 * ((1.2 * worldH : ℚ) : ℝ) *
          ((analyzeSceneGaps scene * worldH : ℚ) : ℝ)) := rfl
    rw [hv]
    have hfr : ((0.15 : ℚ) : ℝ) ≤ ((analyzeSceneGaps scene : ℚ) : ℝ) := by
      exact_mod_cast hf1
    have hhr : (0 : ℝ) < ((worldH : ℚ) : ℝ) := by exact_mod_cast hh
    have h : (0 : ℝ) < Real.sqrt (2 * ((1.2 * worldH : ℚ) : ℝ) *
        ((analyzeSceneGaps scene * worldH : ℚ) : ℝ)) := by
      apply Real.sqrt_pos.mpr
      push_cast
      push_cast at hfr
      have hf0 : (0 : ℝ) < ((analyzeSceneGaps scene : ℚ) : ℝ) := by
        push_cast
        linarith
      push_cast at hf0
      nlinarith [mul_pos hhr (mul_pos hf0 hhr)]
    linarith

/-- Closed witness for C10 at `worldW = worldH = 1000` and a concrete
scene with no platform objects. -/
theorem c10_physics_total_witness :
    (0 : ℚ) < 1000 ∧
    ((1 : ℚ) ∈ yPositionsOf sceneBare ∧
      sceneBare.spawns.exit.y ∈ yPositionsOf sceneBare ∧
      0.15 ≤ analyzeSceneGaps sceneBare ∧ analyzeSceneGaps sceneBare ≤ 0.45 ∧
      (computePhysics 1000 1000 (some sceneBare)).jumpVelocity < 0) :=
  ⟨by norm_num, c10_physics_total 1000 1000 sceneBare (by norm_num) (by norm_num)⟩

/-- C3: the builder is deterministic — it is a pure function of the
detection response (the PRNG is seeded only from the input, threaded
locally), so inputs equal by value give the same 32-bit seed and
field-for-field the same scene on every call. -/
theorem c3_determinism (sinF : ℚ → ℚ) (D1 D2 : DetectionResponse)
    (himg : D1.image = D2.image) (hdet : D1.detections = D2.detections) :
    deriveSeed D1 = deriveSeed D2 ∧ buildLevel sinF D1 = buildLevel sinF D2 := by
  cases D1
  cases D2
  cases himg
  cases hdet
  exact ⟨rfl, rfl⟩

/-- Closed witness for C3 at a concrete input. -/
theorem c3_determinism_witness :
    deriveSeed inputEmpty100 = deriveSeed inputEmpty100 ∧
    buildLevel sinZero inputEmpty100 = buildLevel sinZero inputEmpty100 :=
  c3_determinism sinZero inputEmpty100 inputEmpty100 rfl rfl

/-- C6: classification — every non-food detection becomes a platform
candidate with clamped width and the plant/electric enemy-anchor flag;
food detections become collectible candidates of which only the first
five are consumed; `platCount = clamp(candidates, 5, 8)`; the candidate
list is padded with synthetic ledges until it reaches `platCount`. -/
theorem c6_classification (dets : List Detection) :
    ((classify dets).1 =
      (dets.filter (fun d => !decide (d.category = Category.food))).map
        (fun d => { label := d.label, category := d.category
                    confidence := d.confidence
                    width := clampQ d.bounds_normalized.w 0.12 0.35
                    enemyAnchor := decide (d.category = Category.plant ∨
                      d.category = Category.electric) }) ∧
     (classify dets).2 = dets.filter (fun d => decide (d.category = Category.food))) ∧
    (5 ≤ platCountOf (classify dets).1.length ∧
     platCountOf (classify dets).1.length ≤ 8 ∧
     ((classify dets).1.length ≤ 5 → platCountOf (classify dets).1.length = 5) ∧
     (5 ≤ (classify dets).1.length → (classify dets).1.length ≤ 8 →
       platCountOf (classify dets).1.length = (classify dets).1.length) ∧
     (8 ≤ (classify dets).1.length → platCountOf (classify dets).1.length = 8)) ∧
    ((padInfos (classify dets).1 (platCountOf (classify dets).1.length)).length =
      max (classify dets).1.length (platCountOf (classify dets).1.length) ∧
     (∀ j, (classify dets).1.length ≤ j →
       ∀ p, (padInfos (classify dets).1 (platCountOf (classify dets).1.length)).get? j
          = some p →
         p = { label := "ledge", category := Category.other, confidence := 1
               width := 0.18, enemyAnchor := false })) ∧
    (∀ (idBase : Nat) (rp : List SPlat),
      (collectibleObjs idBase (classify dets).2 rp).length =
        min (classify dets).2.length 5) := by
  refine ⟨⟨classify_fst dets, classify_snd dets⟩, ?_, ⟨?_, ?_⟩, ?_⟩
  · refine ⟨platCountOf_ge _, platCountOf_le _, ?_, ?_, ?_⟩ <;>
      (intro h1
       try intro h2) <;>
      simp [platCountOf, MIN_PLATFORMS, MAX_PLATFORMS] <;> omega
  · unfold padInfos
    rw [List.length_append, List.length_replicate]
    omega
  · intro j hj p hp
    unfold padInfos at hp
    rw [List.get?_append_right hj] at hp
    have hm : p ∈ List.replicate
        (platCountOf (classify dets).1.length - (classify dets).1.length) ledgeInfo :=
      List.get?_mem hp
    exact List.eq_of_mem_replicate hm
  · intro idBase rp
    exact collectibleObjs_length idBase _ rp

/-- C2: reachability — in every built scene, sorting the landing
multiset `{1.0} ∪ {platform ys} ∪ {exit y}` ascending, each consecutive
gap is at most `MAX_JUMP_HEIGHT = 0.22`, and the physics-side jump
fraction the gap analyzer derives from the same scene lies in
`[0.15, 0.45]`. -/
theorem c2_reachability (sinF : ℚ → ℚ) (input : DetectionResponse) :
    maxGapScan 0 (sortYs (yPositionsOf (buildLevel sinF input))) ≤ MAX_JUMP_HEIGHT ∧
    0.15 ≤ analyzeSceneGaps (buildLevel sinF input) ∧
    analyzeSceneGaps (buildLevel sinF input) ≤ 0.45 := by
  refine ⟨?_, (analyzeSceneGaps_mem _).1, (analyzeSceneGaps_mem _).2⟩
  apply maxGap_le_of_WithinG
  · rw [MAX_JUMP_HEIGHT]
    norm_num
  · exact scene_WithinG (mulberryStream (seedPattern input)) sinF input
      (mulberryStream_ok (seedPattern input))

lemma boundsOK_mk (x y w h : ℚ) (h1 : 0 ≤ x) (h2 : 0 ≤ y) (h3 : 0 ≤ w)
    (h4 : 0 ≤ h) (h5 : x + w ≤ 1) (h6 : y + h ≤ 1) :
    0 ≤ x ∧ x ≤ 1 ∧ 0 ≤ y ∧ y ≤ 1 ∧ 0 ≤ w ∧ w ≤ 1 ∧ 0 ≤ h ∧ h ≤ 1 ∧
      x + w ≤ 1 ∧ y + h ≤ 1 :=
  ⟨h1, by linarith, h2, by linarith, h3, by linarith, h4, by linarith, h5, h6⟩

/-- C4: every object the builder emits (staircase platform, bonus
platform, ground, collectible) has `bounds_normalized` fields in `[0, 1]`
with `x + w ≤ 1` and `y + h ≤ 1`. -/
theorem c4_bounds_invariant (sinF : ℚ → ℚ) (input : DetectionResponse) :
    ∀ o ∈ (buildLevel sinF input).objects,
      0 ≤ o.bounds_normalized.x ∧ o.bounds_normalized.x ≤ 1 ∧
      0 ≤ o.bounds_normalized.y ∧ o.bounds_normalized.y ≤ 1 ∧
      0 ≤ o.bounds_normalized.w ∧ o.bounds_normalized.w ≤ 1 ∧
      0 ≤ o.bounds_normalized.h ∧ o.bounds_normalized.h ≤ 1 ∧
      o.bounds_normalized.x + o.bounds_normalized.w ≤ 1 ∧
      o.bounds_normalized.y + o.bounds_normalized.h ≤ 1 := by
  intro o ho
  have hr : RngOK (mulberryStream (seedPattern input)) :=
    mulberryStream_ok (seedPattern input)
  rw [show buildLevel sinF input =
      buildLevelWith (mulberryStream (seedPattern input)) sinF input from rfl,
    buildLevelWith_objects] at ho
  obtain ⟨o2, ho2, _, hbounds⟩ :=
    enemiesFold_mem _ _ _ o ho
  rw [hbounds]
  unfold objsEFOf at ho2
  rcases List.mem_append.mp ho2 with h | h
  · -- platform-type objects (staircase, bonus, ground)
    unfold platObjsOf at h
    obtain ⟨i, hi, hoe⟩ := List.mem_map.mp h
    rw [List.mem_range] at hi
    have hb : o2.bounds_normalized =
        ((allPlatsOf (mulberryStream (seedPattern input)) sinF input).getD i
          dummyPlat).bounds := by
      rw [← hoe]
      rfl
    rw [hb]
    generalize hgen : (allPlatsOf (mulberryStream (seedPattern input)) sinF
      input).getD i dummyPlat = sp
    have hmem : sp ∈ allPlatsOf (mulberryStream (seedPattern input)) sinF input := by
      rw [← hgen, List.getD_eq_getElem _ _ hi]
      exact List.getElem_mem _
    unfold allPlatsOf at hmem
    rcases List.mem_append.mp hmem with hw | hw
    · obtain ⟨h1, h2, h3, h4, h5, h6, h7⟩ :=
        withBonus_bounds (mulberryStream (seedPattern input)) sinF input hr sp hw
      rw [MIN_PLAT_W] at h1
      rw [MAX_PLAT_W] at h2
      rw [X_MIN] at h3
      rw [X_MAX] at h4
      rw [h7, PLATFORM_THICKNESS]
      exact boundsOK_mk _ _ _ _ (by linarith) (by linarith) (by linarith)
        (by norm_num) (by linarith) (by linarith)
    · rcases List.mem_singleton.mp hw with rfl
      unfold groundPlat
      dsimp only
      rw [GROUND_Y, PLATFORM_THICKNESS]
      exact boundsOK_mk _ _ _ _ (by norm_num) (by norm_num) (by norm_num)
        (by norm_num) (by norm_num) (by norm_num)
  · -- collectible objects
    unfold collectibleObjs at h
    obtain ⟨i, hi, hoe⟩ := List.mem_map.mp h
    rw [List.mem_range] at hi
    have hb : o2.bounds_normalized =
        { x := clampQ (((realPlatsOf (mulberryStream (seedPattern input)) sinF
              input).getD (i % (realPlatsOf (mulberryStream (seedPattern input))
                sinF input).length) dummyPlat).bounds.x +
            ((realPlatsOf (mulberryStream (seedPattern input)) sinF input).getD
              (i % (realPlatsOf (mulberryStream (seedPattern input)) sinF
                input).length) dummyPlat).bounds.w * 0.3) 0.02 0.95
          y := ((realPlatsOf (mulberryStream (seedPattern input)) sinF input).getD
              (i % (realPlatsOf (mulberryStream (seedPattern input)) sinF
                input).length) dummyPlat).bounds.y - 0.04
          w := 0.03, h := 0.03 } := by
      rw [← hoe]
    rw [hb]
    dsimp only
    have hlen : 0 < (realPlatsOf (mulberryStream (seedPattern input)) sinF
        input).length := by
      have hl := realPlats_length_ge (mulberryStream (seedPattern input)) sinF input hr
      omega
    generalize hgen : (realPlatsOf (mulberryStream (seedPattern input)) sinF
      input).getD (i % (realPlatsOf (mulberryStream (seedPattern input)) sinF
      input).length) dummyPlat = plat
    have hmem : plat ∈ realPlatsOf (mulberryStream (seedPattern input)) sinF input := by
      rw [← hgen, List.getD_eq_getElem _ _ (Nat.mod_lt i hlen)]
      exact List.getElem_mem _
    rw [realPlatsOf_eq _ sinF input hr] at hmem
    obtain ⟨_, _, _, _, h5, h6, _⟩ :=
      withBonus_bounds (mulberryStream (seedPattern input)) sinF input hr plat hmem
    have hx1 : (0.02 : ℚ) ≤
        clampQ (plat.bounds.x + plat.bounds.w * 0.3) 0.02 0.95 :=
      le_clampQ _ _ _
    have hx2 : clampQ (plat.bounds.x + plat.bounds.w * 0.3) 0.02 0.95 ≤ 0.95 :=
      clampQ_le _ _ _ (by norm_num)
    exact boundsOK_mk _ _ _ _ (by linarith) (by linarith) (by norm_num)
      (by norm_num) (by linarith) (by linarith)

set_option maxRecDepth 80000 in
/-- C5 as stated is false on the code: with eight platform candidates and
a two-platform bonus draw the scene holds `8 + 2 + 1 = 11` platform-type
objects (staircase + bonus + ground), exceeding 10. -/
theorem c5_counterexample :
    ¬ countPlatformObjs (buildLevel sinZero inputEight) ≤ 10 := by
  have h : countPlatformObjs (buildLevel sinZero inputEight) = 11 := by
    with_unfolding_all rfl
  omega

/-- C5 amended: the platform-object count (staircase + bonus + ground)
is at most `11`, and the collectible count at most `5`. -/
theorem c5_caps_amended (sinF : ℚ → ℚ) (input : DetectionResponse) :
    countPlatformObjs (buildLevel sinF input) ≤ 11 ∧
    countCollectibleObjs (buildLevel sinF input) ≤ 5 := by
  have hr : RngOK (mulberryStream (seedPattern input)) :=
    mulberryStream_ok (seedPattern input)
  constructor
  · rw [show buildLevel sinF input =
        buildLevelWith (mulberryStream (seedPattern input)) sinF input from rfl,
      countPlats_scene]
    unfold allPlatsOf
    rw [List.length_append, withBonusOf_length _ sinF input hr]
    have h1 := pcOf_le input
    have h2 := bonusCountOf_le (mulberryStream (seedPattern input)) input
    simp
    omega
  · rw [show buildLevel sinF input =
        buildLevelWith (mulberryStream (seedPattern input)) sinF input from rfl,
      countColls_scene]
    omega

/-- C8: every built scene has exactly six pickups — the first a health,
the rest coins — each placed centred above a non-ground real platform;
the "fewer than three pickups" ground-padding branch never fires because
the real-platform list always holds at least six entries. -/
theorem c8_pickups (sinF : ℚ → ℚ) (input : DetectionResponse) :
    (buildLevel sinF input).spawns.pickups.length = 6 ∧
    (buildLevel sinF input).spawns.pickups.map (fun pk => pk.type) =
      ["health", "coin", "coin", "coin", "coin", "coin"] ∧
    padPickups (pickupsOf (realPlatsOf (mulberryStream (seedPattern input)) sinF
      input)) = pickupsOf (realPlatsOf (mulberryStream (seedPattern input)) sinF
      input) ∧
    ∀ pk ∈ (buildLevel sinF input).spawns.pickups,
      ∃ p ∈ realPlatsOf (mulberryStream (seedPattern input)) sinF input,
        p.isGround = false ∧
        pk.x = clampQ (p.bounds.x + p.bounds.w / 2) 0.05 0.95 ∧
        pk.y = p.bounds.y - ENTITY_OFFSET_Y := by
  have hr : RngOK (mulberryStream (seedPattern input)) :=
    mulberryStream_ok (seedPattern input)
  have h6 := realPlats_length_ge (mulberryStream (seedPattern input)) sinF input hr
  have hpad : padPickups (pickupsOf (realPlatsOf (mulberryStream (seedPattern
      input)) sinF input)) = pickupsOf (realPlatsOf (mulberryStream (seedPattern
      input)) sinF input) :=
    padPickups_id _ (by rw [pickupsOf_length _ h6]; omega)
  have hps : (buildLevel sinF input).spawns.pickups =
      pickupsOf (realPlatsOf (mulberryStream (seedPattern input)) sinF input) := by
    rw [show buildLevel sinF input =
        buildLevelWith (mulberryStream (seedPattern input)) sinF input from rfl,
      buildLevelWith_pickups, hpad]
  refine ⟨?_, ?_, hpad, ?_⟩
  · rw [hps]
    exact pickupsOf_length _ h6
  · rw [hps]
    exact pickupsOf_types _ h6
  · intro pk hpk
    rw [hps] at hpk
    obtain ⟨p, hpmem, hx, hy⟩ := pickupsOf_mem _ pk hpk
    refine ⟨p, hpmem, ?_, hx, hy⟩
    rw [realPlatsOf_eq _ sinF input hr] at hpmem
    exact withBonusOf_not_ground _ sinF input hr p hpmem

/-- C9: every built scene has exactly two enemy spawns (never one): the
real-platform list length `n` is always at least six, the chosen indices
`⌊n/3⌋` and `⌊2n/3⌋` are distinct and in range, and the two platform
objects at those positions come out with `enemy_spawn_anchor = true`. -/
theorem c9_enemies (sinF : ℚ → ℚ) (input : DetectionResponse) :
    (buildLevel sinF input).spawns.enemies.length = 2 ∧
    (realPlatsOf (mulberryStream (seedPattern input)) sinF input).length / 3 ≠
      (realPlatsOf (mulberryStream (seedPattern input)) sinF input).length * 2 / 3 ∧
    (realPlatsOf (mulberryStream (seedPattern input)) sinF input).length / 3 <
      (realPlatsOf (mulberryStream (seedPattern input)) sinF input).length ∧
    (realPlatsOf (mulberryStream (seedPattern input)) sinF input).length * 2 / 3 <
      (realPlatsOf (mulberryStream (seedPattern input)) sinF input).length ∧
    (∃ o1, (buildLevel sinF input).objects.get?
        ((realPlatsOf (mulberryStream (seedPattern input)) sinF input).length / 3) =
          some o1 ∧
      o1.type = ObjType.platform ∧ o1.enemy_spawn_anchor = some true) ∧
    (∃ o2, (buildLevel sinF input).objects.get?
        ((realPlatsOf (mulberryStream (seedPattern input)) sinF input).length * 2 / 3) =
          some o2 ∧
      o2.type = ObjType.platform ∧ o2.enemy_spawn_anchor = some true) := by
  have hr : RngOK (mulberryStream (seedPattern input)) :=
    mulberryStream_ok (seedPattern input)
  have h6 := realPlats_length_ge (mulberryStream (seedPattern input)) sinF input hr
  have h10 := realPlats_length_le (mulberryStream (seedPattern input)) sinF input hr
  have hm1 : (realPlatsOf (mulberryStream (seedPattern input)) sinF input).length / 3 <
      (realPlatsOf (mulberryStream (seedPattern input)) sinF input).length := by omega
  have hm2 : (realPlatsOf (mulberryStream (seedPattern input)) sinF input).length * 2 / 3 <
      (realPlatsOf (mulberryStream (seedPattern input)) sinF input).length := by omega
  have hne : (realPlatsOf (mulberryStream (seedPattern input)) sinF input).length / 3 ≠
      (realPlatsOf (mulberryStream (seedPattern input)) sinF input).length * 2 / 3 := by
    omega
  -- the two real platforms at the chosen indices
  rcases hg1 : (realPlatsOf (mulberryStream (seedPattern input)) sinF input).get?
      ((realPlatsOf (mulberryStream (seedPattern input)) sinF input).length / 3)
    with _ | p1
  · rw [List.get?_eq_none] at hg1
    omega
  rcases hg2 : (realPlatsOf (mulberryStream (seedPattern input)) sinF input).get?
      ((realPlatsOf (mulberryStream (seedPattern input)) sinF input).length * 2 / 3)
    with _ | p2
  · rw [List.get?_eq_none] at hg2
    omega
  obtain ⟨hposInv, _⟩ :=
    withBonusOf_pos_y_inv (mulberryStream (seedPattern input)) sinF input hr
  have hp1pos : p1.pos =
      (realPlatsOf (mulberryStream (seedPattern input)) sinF input).length / 3 := by
    apply hposInv
    rw [← realPlatsOf_eq _ sinF input hr]
    exact hg1
  have hp2pos : p2.pos =
      (realPlatsOf (mulberryStream (seedPattern input)) sinF input).length * 2 / 3 := by
    apply hposInv
    rw [← realPlatsOf_eq _ sinF input hr]
    exact hg2
  have hidx : enemyIdxsOf (mulberryStream (seedPattern input)) sinF input =
      [(realPlatsOf (mulberryStream (seedPattern input)) sinF input).length / 3,
       (realPlatsOf (mulberryStream (seedPattern input)) sinF input).length * 2 / 3] := by
    unfold enemyIdxsOf
    rw [if_pos (by omega)]
  have hfold := enemiesFold_pair
    (realPlatsOf (mulberryStream (seedPattern input)) sinF input)
    (objsEFOf (mulberryStream (seedPattern input)) sinF input) _ _ p1 p2 hg1 hg2
  have hobjs : (buildLevel sinF input).objects =
      setAnchorAt (setAnchorAt (objsEFOf (mulberryStream (seedPattern input)) sinF
        input) p1.pos) p2.pos := by
    rw [show buildLevel sinF input =
        buildLevelWith (mulberryStream (seedPattern input)) sinF input from rfl,
      buildLevelWith_objects, hidx, hfold]
  have hens : (buildLevel sinF input).spawns.enemies.length = 2 := by
    rw [show buildLevel sinF input =
        buildLevelWith (mulberryStream (seedPattern input)) sinF input from rfl,
      buildLevelWith_enemies, hidx, hfold]
    rfl
  -- the emitted platform objects at those positions
  have halllen : (allPlatsOf (mulberryStream (seedPattern input)) sinF input).length =
      (realPlatsOf (mulberryStream (seedPattern input)) sinF input).length + 1 := by
    unfold allPlatsOf
    rw [List.length_append, ← realPlatsOf_eq _ sinF input hr]
    rfl
  have he1 := objsEF_get (mulberryStream (seedPattern input)) sinF input
    (j := (realPlatsOf (mulberryStream (seedPattern input)) sinF input).length / 3)
    (by omega)
  have he2 := objsEF_get (mulberryStream (seedPattern input)) sinF input
    (j := (realPlatsOf (mulberryStream (seedPattern input)) sinF input).length * 2 / 3)
    (by omega)
  refine ⟨hens, hne, hm1, hm2, ?_, ?_⟩
  · refine ⟨{ emitPlatform
        ((realPlatsOf (mulberryStream (seedPattern input)) sinF input).length / 3)
        ((allPlatsOf (mulberryStream (seedPattern input)) sinF input).getD
          ((realPlatsOf (mulberryStream (seedPattern input)) sinF input).length / 3)
          dummyPlat) with enemy_spawn_anchor := some true }, ?_, rfl, rfl⟩
    rw [hobjs, hp1pos, hp2pos, setAnchorAt_get_ne _ _ _ hne]
    exact setAnchorAt_get_self _ _ _ he1 rfl
  · refine ⟨{ emitPlatform
        ((realPlatsOf (mulberryStream (seedPattern input)) sinF input).length * 2 / 3)
        ((allPlatsOf (mulberryStream (seedPattern input)) sinF input).getD
          ((realPlatsOf (mulberryStream (seedPattern input)) sinF input).length * 2 / 3)
          dummyPlat) with enemy_spawn_anchor := some true }, ?_, rfl, rfl⟩
    rw [hobjs, hp1pos, hp2pos]
    apply setAnchorAt_get_self
    · rw [setAnchorAt_get_ne _ _ _ (Ne.symm hne)]
      exact he2
    · rfl

set_option maxRecDepth 80000 in
/-- C1 counterexample: on a 100x100 image with an empty detection list the
built scene contains 8 platform objects, not 6 — the bonus-platform loop
always adds one or two platforms beyond the five synthetic ledges and the
ground. -/
theorem c1_counterexample :
    ¬ countPlatformObjs (buildLevel sinZero inputEmpty100) = 6 := by
  have h : countPlatformObjs (buildLevel sinZero inputEmpty100) = 8 := by
    with_unfolding_all rfl
  omega

/-- C1 amended: for any detection response with an empty detection list,
`platCount` clamps up to 5, the scene contains 7 or 8 platform objects
(five synthetic ledges, one or two bonus platforms, and the ground), the
player spawns at `(0.08, 0.86)`, and the exit sits on a synthetic "ledge"
staircase platform whose top edge is lowest-y (highest on screen) among
all real platforms, at the exit-offset position derived from it. -/
theorem c1_empty_detections (sinF : ℚ → ℚ) (input : DetectionResponse)
    (hempty : input.detections = []) :
    pcOf input = 5 ∧
    (countPlatformObjs (buildLevel sinF input) = 7 ∨
     countPlatformObjs (buildLevel sinF input) = 8) ∧
    (buildLevel sinF input).spawns.player = { x := 0.08, y := 0.86 } ∧
    ∃ hp ∈ stairsOf (mulberryStream (seedPattern input)) sinF input,
      hp.info.label = "ledge" ∧
      (∀ q ∈ realPlatsOf (mulberryStream (seedPattern input)) sinF input,
        hp.bounds.y ≤ q.bounds.y) ∧
      (buildLevel sinF input).spawns.exit =
        { x := clampQ (hp.bounds.x + hp.bounds.w - 0.04) 0.6 0.95
          y := hp.bounds.y - ENTITY_OFFSET_Y } := by
  have hr : RngOK (mulberryStream (seedPattern input)) :=
    mulberryStream_ok (seedPattern input)
  have hpi : platformInfosOf input = [] := by
    unfold platformInfosOf
    rw [hempty]
    rfl
  have hpc : pcOf input = 5 := by
    unfold pcOf
    rw [hpi]
    rfl
  have hcount : countPlatformObjs (buildLevel sinF input) =
      pcOf input + bonusCountOf (mulberryStream (seedPattern input)) input + 1 := by
    rw [show buildLevel sinF input =
        buildLevelWith (mulberryStream (seedPattern input)) sinF input from rfl,
      countPlats_scene]
    unfold allPlatsOf
    rw [List.length_append,
      withBonusOf_length (mulberryStream (seedPattern input)) sinF input hr]
    rfl
  have hbc1 := bonusCountOf_ge (mulberryStream (seedPattern input)) input
  have hbc2 := bonusCountOf_le (mulberryStream (seedPattern input)) input
  have hcor : countPlatformObjs (buildLevel sinF input) = 7 ∨
      countPlatformObjs (buildLevel sinF input) = 8 := by
    rw [hcount, hpc]
    omega
  have hplayer : (buildLevel sinF input).spawns.player =
      { x := 0.08, y := 0.86 } := by
    rw [show buildLevel sinF input =
        buildLevelWith (mulberryStream (seedPattern input)) sinF input from rfl,
      buildLevelWith_player]
    have hy : GROUND_Y - ENTITY_OFFSET_Y = (0.86 : ℚ) := by
      unfold GROUND_Y ENTITY_OFFSET_Y
      norm_num
    rw [hy]
  obtain ⟨hp, hsl, _, hmin, hexit⟩ :=
    exit_on_last_stair (mulberryStream (seedPattern input)) sinF input hr
  have hmk := stairsOf_get_eq (mulberryStream (seedPattern input)) sinF input
    (i := pcOf input - 1) (by have := pcOf_ge input; omega)
  rw [hmk] at hsl
  have hpeq := Option.some.inj hsl
  have hpmem : hp ∈ stairsOf (mulberryStream (seedPattern input)) sinF input := by
    rw [← hpeq]
    exact List.get?_mem hmk
  have hlabel : hp.info.label = "ledge" := by
    rw [← hpeq]
    have hgd : (padInfos (platformInfosOf input) (pcOf input)).getD
        (pcOf input - 1) ledgeInfo = ledgeInfo := by
      rw [hpi, hpc]
      with_unfolding_all rfl
    rw [hgd]
    rfl
  refine ⟨hpc, hcor, hplayer, hp, hpmem, hlabel, hmin, ?_⟩
  rw [show buildLevel sinF input =
      buildLevelWith (mulberryStream (seedPattern input)) sinF input from rfl]
  exact hexit

set_option maxRecDepth 80000 in
/-- Witness for the amended C1 theorem at the concrete empty 100x100
input. -/
theorem c1_empty_detections_witness :
    inputEmpty100.detections = [] ∧
    (pcOf inputEmpty100 = 5 ∧
     (countPlatformObjs (buildLevel sinZero inputEmpty100) = 7 ∨
      countPlatformObjs (buildLevel sinZero inputEmpty100) = 8) ∧
     (buildLevel sinZero inputEmpty100).spawns.player =
       { x := 0.08, y := 0.86 } ∧
     ∃ hp ∈ stairsOf (mulberryStream (seedPattern inputEmpty100)) sinZero
         inputEmpty100,
       hp.info.label = "ledge" ∧
       (∀ q ∈ realPlatsOf (mulberryStream (seedPattern inputEmpty100)) sinZero
           inputEmpty100,
         hp.bounds.y ≤ q.bounds.y) ∧
       (buildLevel sinZero inputEmpty100).spawns.exit =
         { x := clampQ (hp.bounds.x + hp.bounds.w - 0.04) 0.6 0.95
           y := hp.bounds.y - ENTITY_OFFSET_Y }) :=
  ⟨rfl, c1_empty_detections sinZero inputEmpty100 rfl⟩

set_option maxRecDepth 80000 in
/-- Witness for C4 at the empty-input scene: its object list is nonempty
and its first object satisfies the bounds invariant. -/
theorem c4_bounds_invariant_witness :
    ∃ o, o ∈ (buildLevel sinZero inputEmpty100).objects ∧
      (0 ≤ o.bounds_normalized.x ∧ o.bounds_normalized.x ≤ 1 ∧
       0 ≤ o.bounds_normalized.y ∧ o.bounds_normalized.y ≤ 1 ∧
       0 ≤ o.bounds_normalized.w ∧ o.bounds_normalized.w ≤ 1 ∧
       0 ≤ o.bounds_normalized.h ∧ o.bounds_normalized.h ≤ 1 ∧
       o.bounds_normalized.x + o.bounds_normalized.w ≤ 1 ∧
       o.bounds_normalized.y + o.bounds_normalized.h ≤ 1) := by
  have hlen : (buildLevel sinZero inputEmpty100).objects.length = 8 := by
    with_unfolding_all rfl
  rcases hg : (buildLevel sinZero inputEmpty100).objects.get? 0 with _ | o
  · rw [List.get?_eq_none] at hg
    omega
  · exact ⟨o, List.get?_mem hg,
      c4_bounds_invariant sinZero inputEmpty100 o (List.get?_mem hg)⟩
